import Mathlib

/-!
Verification development for the BestsBot backend (src/server.py).

The Python code is shallowly embedded: every store table is a typed Lean
list held in a `St` record, every endpoint handler becomes a pure state
transition (`Except` models a raised `HTTPException`), and the Python
string/`int` primitives that the invoice-numbering logic relies on
(`str`, `int(...)`, `str.strip`, `str.split`, `str.startswith`,
`f"{n:0Nd}"` formatting, `str.lower`) are modelled over `List Char`.
Machine integers do not occur: Python integers are arbitrary precision,
so they map to `Int`/`Nat` directly.

Request-payload field values are modelled by the scalar type `PyVal`
(`None`, bool, int, str).  Container values passed in a scalar position
would be coerced by `str(...)` to a non-empty textual repr and behave
like any other non-empty coercion; the opaque pass-through documents
(`full_data`, parsed JSON files) are modelled by the separate `PyDoc`
type, which the code never feeds to `str(...)` on the modelled paths.
-/

/-- A scalar Python/JSON value as it occurs in a request payload field:
`None`/`null`, booleans, (arbitrary-precision) integers, strings. -/
inductive PyVal where
  | nullV : PyVal
  | boolV : Bool → PyVal
  | intV : Int → PyVal
  | strV : String → PyVal

/-- An arbitrary JSON document (result of `json.loads`, or an opaque
payload such as `full_data`): scalars, arrays and objects.  Floats are
not used by the application data and are not modelled. -/
inductive PyDoc where
  | nullD : PyDoc
  | boolD : Bool → PyDoc
  | intD : Int → PyDoc
  | strD : String → PyDoc
  | listD : List PyDoc → PyDoc
  | dictD : List (String × PyDoc) → PyDoc

/-- Python truthiness (`bool(v)`) for scalar values: `None`, `False`,
`0`, `""` are falsy, everything else is truthy. -/
def pyTruthy : PyVal → Bool
  | PyVal.nullV => false
  | PyVal.boolV b => b
  | PyVal.intV n => n != 0
  | PyVal.strV s => s != ""

/-- ASCII decimal digit test, as used by `int(...)` on the strings this
code produces. -/
def pyIsDigit (c : Char) : Bool := 48 ≤ c.toNat && c.toNat ≤ 57

/-- The character with code `48 + d`, i.e. the ASCII digit for `d < 10`. -/
def digitChar (d : Nat) : Char := Char.ofNat (48 + d)

/-- Decimal digits of `n`, most significant first, with explicit fuel so
that the definition is structurally recursive (the fuel `n + 1` always
suffices). Models the digit string of Python `str(n)` / `f"{n:d}"` for a
non-negative `n`. -/
def natDigitsAux : Nat → Nat → List Char
  | 0, _ => []
  | f + 1, n => if n < 10 then [digitChar n] else natDigitsAux f (n / 10) ++ [digitChar (n % 10)]

/-- Decimal digit list of a natural number. -/
def natDigits (n : Nat) : List Char := natDigitsAux (n + 1) n

/-- Python `str(n)` for an `int`: a minus sign for negatives followed by
the decimal digits. -/
def pyIntRepr (n : Int) : String :=
  if n < 0 then String.mk ('-' :: natDigits n.natAbs) else String.mk (natDigits n.toNat)

/-- Python `str(v)` for a scalar value: the string itself for strings,
`str(None) = "None"`, `str(5) = "5"`, `str(True) = "True"`. -/
def pyStr : PyVal → String
  | PyVal.nullV => "None"
  | PyVal.boolV b => if b then "True" else "False"
  | PyVal.intV n => pyIntRepr n
  | PyVal.strV s => s

/-- Left-pad a digit list with zeros to width `w` (`str.zfill` core). -/
def zfill (w : Nat) (l : List Char) : List Char := List.replicate (w - l.length) '0' ++ l

/-- Python `f"{n:0wd}"` for a natural number `n`. -/
def pyFmt0Nat (w : Nat) (n : Nat) : String := String.mk (zfill w (natDigits n))

/-- Python `f"{n:0wd}"` for an `int`: the sign counts towards the width,
exactly as in Python (`f"{-5:03d}" = "-05"`). -/
def pyFmt0Int (w : Nat) (n : Int) : String :=
  if n < 0 then String.mk ('-' :: zfill (w - 1) (natDigits n.natAbs))
  else String.mk (zfill w (natDigits n.toNat))

/-- The whitespace characters stripped by Python `str.strip()` (ASCII
range: space, tab, newline, carriage return, vertical tab, form feed). -/
def pySpace (c : Char) : Bool :=
  c.toNat == 32 || c.toNat == 9 || c.toNat == 10 || c.toNat == 13 || c.toNat == 11 || c.toNat == 12

/-- `str.strip()` on a character list: drop whitespace from both ends. -/
def pyStripL (l : List Char) : List Char :=
  ((l.dropWhile pySpace).reverse.dropWhile pySpace).reverse

/-- Python `str.strip()`. -/
def pyStrip (s : String) : String := String.mk (pyStripL s.data)

/-- Digit-sequence scanner of Python `int(str)`: called after an initial
digit has been consumed into `acc`; underscores are allowed only singly
and only between digits. -/
def pyDigitsGo : List Char → Nat → Bool → Option Nat
  | [], acc, underscoreLast => if underscoreLast then Option.none else some acc
  | c :: rest, acc, underscoreLast =>
    if pyIsDigit c then pyDigitsGo rest (acc * 10 + (c.toNat - 48)) false
    else if c == '_' then (if underscoreLast then Option.none else pyDigitsGo rest acc true)
    else Option.none

/-- Digit sequence of Python `int(str)`: first character must be a digit. -/
def pyIntDigits : List Char → Option Nat
  | c :: rest => if pyIsDigit c then pyDigitsGo rest (c.toNat - 48) false else Option.none
  | [] => Option.none

/-- Python `int(s)` on a string: strip whitespace, optional sign, ASCII
digits (with the underscore grouping rule); `Option.none` models the
raised `ValueError`. -/
def pyIntOfString : String → Option Int := fun s =>
  match pyStripL s.data with
  | '+' :: rest => (pyIntDigits rest).map (fun n => (n : Int))
  | '-' :: rest => (pyIntDigits rest).map (fun n => -(n : Int))
  | l => (pyIntDigits l).map (fun n => (n : Int))

/-- Auxiliary for `str.split(sep)` with a one-character separator:
`acc` holds the current chunk reversed. -/
def splitChAux (c : Char) : List Char → List Char → List (List Char)
  | [], acc => [acc.reverse]
  | x :: xs, acc => if x == c then acc.reverse :: splitChAux c xs [] else splitChAux c xs (x :: acc)

/-- Python `s.split(c)` for a single-character separator: splits at every
occurrence, keeping empty chunks, exactly like Python. -/
def pySplitChar (c : Char) (s : String) : List String :=
  (splitChAux c s.data []).map String.mk

/-- `startswith` on character lists. -/
def startsWithL : List Char → List Char → Bool
  | [], _ => true
  | p :: ps, s =>
    match s with
    | c :: cs => p == c && startsWithL ps cs
    | [] => false

/-- Python `s.startswith(p)`. -/
def pyStartsWith (p s : String) : Bool := startsWithL p.data s.data

/-- Python `str.lower` on one ASCII character. -/
def lowerCh (c : Char) : Char :=
  if 65 ≤ c.toNat && c.toNat ≤ 90 then Char.ofNat (c.toNat + 32) else c

/-- Python `s.lower()` (ASCII). -/
def pyLower (s : String) : String := String.mk (s.data.map lowerCh)

/-- Python `a or b` for an optional payload value `a` (absent key ⇒
`None` ⇒ falsy) with fallback `b`: returns the value itself when truthy. -/
def truthyOr (x : Option PyVal) (fb : PyVal) : PyVal :=
  match x with
  | some v => if pyTruthy v then v else fb
  | Option.none => fb

/-- Python `a or fb` for an optional string (form field): `None` and `""`
are falsy. -/
def truthyOrStr (x : Option String) (fb : String) : String :=
  match x with
  | some s => if s != "" then s else fb
  | Option.none => fb

/-- Python `v.strip()` when `v` may not be a string: only strings have
`strip`, any other value raises `AttributeError` (modelled as `error`). -/
def pyStripVal : PyVal → Except Unit String
  | PyVal.strV s => Except.ok (pyStrip s)
  | _ => Except.error ()

/-! ## Data model (src/server.py tables)

Each JSON table is modelled by a typed list; the JSON objects the code
itself writes always carry these fields with these types, and the
record-level `dict.get` accesses of the source become field accesses. -/

/-- A row of `managers.json`: `{id, name}` (src/server.py, create_or_update_manager). -/
structure Manager where
  id : String
  name : String

/-- A row of `orders.json` as written by `create_order` (src/server.py lines 412-433). -/
structure Order where
  id : String
  companyName : String
  nameCompanyRaw : PyVal
  companyBin : String
  binCompanyRaw : PyVal
  managerId : String
  status : String
  fullData : PyDoc
  createdAt : String
  updatedAt : String

/-- A row of `invoices.json` as written by the invoice endpoints
(src/server.py lines 739-753 and 788-800). -/
structure Invoice where
  id : String
  number : String
  orderId : Option String
  status : String
  date : String
  fileName : Option String
  fileUrl : Option String
  createdAt : String
  updatedAt : Option String

/-- The payload of `POST /api/records` (the handler keys it accesses). -/
structure RecPayload where
  id : Option PyVal
  name : Option PyVal
  date : Option PyVal
  file : Option PyVal
  fileUrl : Option PyVal

/-- A row of `records.json` as written by `create_record` (src/server.py lines 279-286). -/
structure Rec where
  id : String
  name : String
  date : String
  fileUrl : String
  payload : RecPayload
  createdAt : String

/-- The whole persisted store: one field per JSON file, plus the invoice
counter dict (`invoice_counters.json`, mapping "YYYY-MM" period keys to
the last issued sequence). -/
structure St where
  records : List Rec
  managers : List Manager
  orders : List Order
  invoices : List Invoice
  counters : List (String × Int)

/-- The empty store (all tables empty, no counters). -/
def emptySt : St := { records := [], managers := [], orders := [], invoices := [], counters := [] }

/-- `datetime` as the numbering logic consumes it: the `year`/`month`
components, `int(dt.timestamp())` and `dt.isoformat()` (the last two are
opaque to every claim and carried as data). -/
structure PyDT where
  year : Nat
  month : Nat
  ts : Int
  iso : String

/-- Python `dict.get(key, default)` on the counter dict (first matching
key; the dicts the code writes have unique keys). -/
def dictGet (d : List (String × Int)) (k : String) (dflt : Int) : Int :=
  match d.find? (fun kv => kv.1 == k) with
  | some kv => kv.2
  | Option.none => dflt

/-- Python `dict.get(key)` without default, as an option. -/
def dictLookup (d : List (String × Int)) (k : String) : Option Int :=
  (d.find? (fun kv => kv.1 == k)).map (fun kv => kv.2)

/-- Python `d[key] = v`: replace the first binding of `k`, or append. -/
def dictSet : List (String × Int) → String → Int → List (String × Int)
  | [], k, v => [(k, v)]
  | kv :: rest, k, v => if kv.1 == k then (k, v) :: rest else kv :: dictSet rest k v

/-- Replace the first list element satisfying `p` by `f` of it (the
`for ... if match: mutate; break` loops of the source). -/
def updateFirst (p : α → Bool) (f : α → α) : List α → List α
  | [] => []
  | x :: xs => if p x then f x :: xs else x :: updateFirst p f xs

/-- Remove the first list element satisfying `p` (the
`find index; list.pop(index)` pattern of the delete handlers). -/
def removeFirst (p : α → Bool) : List α → List α
  | [] => []
  | x :: xs => if p x then xs else x :: removeFirst p xs

/-! ## Error taxonomy

An `HTTPException` raised by a handler, reduced to the taxonomy of
spec.md section 7. -/

/-- The errors the modelled handlers raise. `attributeErr` is the
uncaught `AttributeError` of `create_record` when a non-string truthy
`file`/`file_url` value is stripped (an unhandled exception, HTTP 500). -/
inductive ApiErr where
  | missingField : String → ApiErr
  | duplicateNumber : ApiErr
  | invalidStatus : ApiErr
  | notFound : String → ApiErr
  | attributeErr : ApiErr

/-- HTTP status of each error: `MissingField`, `DuplicateNumber` and
`InvalidStatus` are 400, `NotFound` is 404, an unhandled exception is a
500 response. -/
def httpStatus : ApiErr → Nat
  | ApiErr.missingField _ => 400
  | ApiErr.duplicateNumber => 400
  | ApiErr.invalidStatus => 400
  | ApiErr.notFound _ => 404
  | ApiErr.attributeErr => 500

/-- The store after a handler outcome: the successor state on success,
the untouched input state when the handler raised (every modelled raise
happens before any `_save_*` call of that handler). -/
def resultSt (e : Except ApiErr (α × St)) (st : St) : St :=
  match e with
  | Except.ok p => p.2
  | Except.error _ => st

/-! ## Invoice numbering sequencer (src/server.py lines 698-737) -/

/-- The two-digit month of the target datetime followed by a dash:
`month_prefix = f"{for_dt.month:02d}-"`. -/
def monthPre (dt : PyDT) : String := pyFmt0Nat 2 dt.month ++ "-"

/-- One step of the scan loop of `_next_invoice_number`: if the number
starts with the month prefix, parse the chunk after the first dash as an
int and keep the maximum (parse failures are skipped by the
`except: continue`). -/
def suffixOfNum (pre num : String) : Option Int :=
  if pyStartsWith pre num then
    match (pySplitChar '-' num)[1]? with
    | some part => pyIntOfString part
    | Option.none => Option.none
  else Option.none

/-- The loop body of `_next_invoice_number` (lines 702-710). -/
def suffixUpd (pre : String) (acc : Int) (inv : Invoice) : Int :=
  match suffixOfNum pre inv.number with
  | some suf => if suf > acc then suf else acc
  | Option.none => acc

/-- `max_suffix` after the scan loop of `_next_invoice_number`: the
largest parsed sequence suffix among invoices whose number starts with
the month prefix, and 0 when there is none. -/
def monthMaxSuffix (pre : String) (invoices : List Invoice) : Int :=
  invoices.foldl (suffixUpd pre) 0

/-- `_next_invoice_number` (src/server.py lines 698-712): scan the
invoice list and return `f"{month_prefix}{max_suffix + 1:03d}"`. -/
def nextInvoiceNumber (dt : PyDT) (invoices : List Invoice) : String :=
  monthPre dt ++ pyFmt0Int 3 (monthMaxSuffix (monthPre dt) invoices + 1)

/-- The period key `f"{for_dt.year:04d}-{for_dt.month:02d}"`. -/
def periodKey (dt : PyDT) : String := pyFmt0Nat 4 dt.year ++ "-" ++ pyFmt0Nat 2 dt.month

/-- Python `max(a, b)`: returns `b` exactly when `b > a` (kept explicit
so that kernel evaluation works on concrete inputs). -/
def pyMax (a b : Int) : Int := if b > a then b else a

/-- `_reserve_next_invoice_number` (src/server.py lines 714-730):
`preview_suffix` re-derives the live maximum by parsing the preview
number (`int(_next_invoice_number(for_dt).split("-")[1]) - 1`, any
failure giving 0), the persisted counter for the period key is floored
against it, incremented, persisted, and the number is formatted. -/
def reserveNextInvoiceNumber (dt : PyDT) (st : St) : String × St :=
  let key := periodKey dt
  let counters := st.counters
  let previewSuffix : Int :=
    match (pySplitChar '-' (nextInvoiceNumber dt st.invoices))[1]? with
    | some part =>
      match pyIntOfString part with
      | some n => n - 1
      | Option.none => 0
    | Option.none => 0
  let last := dictGet counters key 0
  let nextSuffix := pyMax last previewSuffix + 1
  (pyFmt0Nat 2 dt.month ++ "-" ++ pyFmt0Int 3 nextSuffix,
   { st with counters := dictSet counters key nextSuffix })

/-- `_invoice_number_exists` (src/server.py lines 732-737). -/
def invoiceNumberExists (number : String) (invoices : List Invoice) : Bool :=
  invoices.any (fun inv => inv.number == number)

/-- The allowed status values (`ALLOWED_STATUSES` of src/server.py). -/
def allowedStatus (s : String) : Bool :=
  s == "" || s == "production" || s == "waiting" || s == "shipped" || s == "rejected"

/-! ## Entity endpoints (src/server.py handlers)

Each handler is a pure transition on `St`.  ISO date parsing
(`_parse_iso_date_or_now`) is outside every claim; handlers take the
resulting `PyDT` directly.  The `now_iso` timestamp and the random id
suffix of `create_order` are nondeterministic inputs and are passed as
parameters. -/

/-- The payload keys `POST /api/managers` accesses. -/
structure ManagerPayload where
  id : Option PyVal
  name : Option PyVal

/-- `create_or_update_manager` (src/server.py lines 306-336): validate
`id`/`name` via `str(payload.get(k, "")).strip()`, then update the first
manager with that id or append a new one. -/
def createOrUpdateManager (p : ManagerPayload) (st : St) : Except ApiErr ((String × Manager) × St) :=
  let managerId := pyStrip (pyStr (p.id.getD (PyVal.strV "")))
  let name := pyStrip (pyStr (p.name.getD (PyVal.strV "")))
  if managerId = "" then Except.error (ApiErr.missingField "id")
  else if name = "" then Except.error (ApiErr.missingField "name")
  else
    let existed := st.managers.any (fun m => m.id == managerId)
    let managers :=
      if existed then updateFirst (fun m => m.id == managerId) (fun m => { m with name := name }) st.managers
      else st.managers ++ [{ id := managerId, name := name }]
    Except.ok ((if existed then "updated" else "created", { id := managerId, name := name }),
      { st with managers := managers })

/-- `create_record` (src/server.py lines 246-293): the four field
computations run first (so a truthy non-string `file`/`file_url` raises
`AttributeError` before any required-field check), then the checks in
source order, then append. -/
def createRecord (p : RecPayload) (nowIso : String) (st : St) : Except ApiErr (Rec × St) :=
  let recordId := pyStrip (pyStr (p.id.getD (PyVal.strV "")))
  let name := pyStrip (pyStr (p.name.getD (PyVal.strV "")))
  let dateStr := pyStrip (pyStr (p.date.getD (PyVal.strV "")))
  match pyStripVal (truthyOr p.file (truthyOr p.fileUrl (PyVal.strV ""))) with
  | Except.error _ => Except.error ApiErr.attributeErr
  | Except.ok fileUrl =>
    if recordId = "" then Except.error (ApiErr.missingField "id")
    else if name = "" then Except.error (ApiErr.missingField "name")
    else if dateStr = "" then Except.error (ApiErr.missingField "date")
    else if fileUrl = "" then Except.error (ApiErr.missingField "file")
    else
      let r : Rec := { id := recordId, name := name, date := dateStr, fileUrl := fileUrl,
                       payload := p, createdAt := nowIso }
      Except.ok (r, { st with records := st.records ++ [r] })

/-- The payload keys `POST /api/orders` accesses. -/
structure OrderPayload where
  id : Option PyVal
  nameCompany : Option PyVal
  companyName : Option PyVal
  binCompany : Option PyVal
  companyBin : Option PyVal
  idManager : Option PyVal
  managerId : Option PyVal
  fullData : Option PyDoc
  status : Option PyVal

/-- `create_order` (src/server.py lines 354-451): upsert keyed on `id`
(generated as `order_{ts}_{rand}` when empty or `temp_`-prefixed); a
status outside `ALLOWED_STATUSES` is silently replaced by `""`; updates
keep the original `created_at`. -/
def createOrder (p : OrderPayload) (ts : Int) (rand : String) (nowIso : String) (st : St) : Order × St :=
  let orderId0 := pyStrip (pyStr (p.id.getD (PyVal.strV "")))
  let companyName := pyStrip (pyStr (truthyOr p.nameCompany (truthyOr p.companyName (PyVal.strV ""))))
  let companyBin := pyStrip (pyStr (truthyOr p.binCompany (truthyOr p.companyBin (PyVal.strV ""))))
  let managerId := pyStrip (pyStr (truthyOr p.idManager (truthyOr p.managerId (PyVal.strV ""))))
  let fullData := p.fullData.getD (PyDoc.dictD [])
  let orderId :=
    if orderId0 = "" || pyStartsWith "temp_" orderId0 then "order_" ++ pyIntRepr ts ++ "_" ++ rand
    else orderId0
  let status0 := pyStrip (pyStr (p.status.getD (PyVal.strV "")))
  let status := if allowedStatus status0 then status0 else ""
  let base : Order :=
    { id := orderId, companyName := companyName, nameCompanyRaw := p.nameCompany.getD (PyVal.strV ""),
      companyBin := companyBin, binCompanyRaw := p.binCompany.getD (PyVal.strV ""),
      managerId := managerId, status := status, fullData := fullData,
      createdAt := nowIso, updatedAt := nowIso }
  match st.orders.find? (fun o => o.id == orderId) with
  | some existing =>
    let updated := { base with createdAt := existing.createdAt }
    (updated, { st with orders := updateFirst (fun o => o.id == orderId) (fun _ => updated) st.orders })
  | Option.none =>
    (base, { st with orders := st.orders ++ [base] })

/-- A `{"status": ...}` payload. -/
structure StatusPayload where
  status : Option PyVal

/-- `update_order_status` (src/server.py lines 454-488): 400 on a status
outside `ALLOWED_STATUSES`, 404 when no order has the id, otherwise set
`status` and `updated_at` on the first match. -/
def updateOrderStatus (orderId : String) (p : StatusPayload) (nowIso : String) (st : St) :
    Except ApiErr (Order × St) :=
  let status := pyStrip (pyStr (p.status.getD (PyVal.strV "")))
  if !allowedStatus status then Except.error ApiErr.invalidStatus
  else
    match st.orders.find? (fun o => o.id == orderId) with
    | Option.none => Except.error (ApiErr.notFound "Order not found")
    | some o =>
      let o2 := { o with status := status, updatedAt := nowIso }
      Except.ok (o2, { st with orders := updateFirst (fun x => x.id == orderId) (fun x => { x with status := status, updatedAt := nowIso }) st.orders })

/-- `delete_order` (src/server.py lines 498-527): 404 when no order has
the id, otherwise pop the first match. -/
def deleteOrder (orderId : String) (st : St) : Except ApiErr St :=
  if st.orders.any (fun o => o.id == orderId) then
    Except.ok { st with orders := removeFirst (fun o => o.id == orderId) st.orders }
  else Except.error (ApiErr.notFound "Order not found")

/-- Basename of an uploaded filename (`Path(name).name`), for the
typical slash-separated names; the `.`/trailing-slash special cases of
`pathlib` do not arise here. -/
def pyPathName (s : String) : String := ((pySplitChar '/' s).reverse).headD ""

/-- An uploaded file, reduced to the only attribute the handlers read. -/
structure FileForm where
  filename : Option String

/-- `create_invoice` = `POST /api/invoices` (src/server.py lines
756-802): an explicit non-blank number must be unused (else 400 before
any write), otherwise a number is reserved (mutating the counter); the
record is appended with status `""`. -/
def createInvoice (when : PyDT) (number : Option String) (orderId : Option String)
    (file : Option FileForm) (nowIso : String) (st : St) : Except ApiErr (Invoice × St) :=
  let finish : String → St → Except ApiErr (Invoice × St) := fun numb st1 =>
    let stored : Option String :=
      match file with
      | some f => some (numb ++ "_" ++ pyPathName (truthyOrStr f.filename "invoice.bin"))
      | Option.none => Option.none
    let publicUrl : Option String := stored.map (fun fn => "/static/invoices/" ++ fn)
    let k := st1.invoices.length + 1
    let r : Invoice :=
      { id := "inv_" ++ pyIntRepr when.ts ++ "_" ++ pyIntRepr k, number := numb,
        orderId := orderId, status := "", date := when.iso ++ "Z",
        fileName := stored, fileUrl := publicUrl, createdAt := nowIso, updatedAt := Option.none }
    Except.ok (r, { st1 with invoices := st1.invoices ++ [r] })
  match number with
  | some s =>
    if s != "" && pyStrip s != "" then
      let numb := pyStrip s
      if invoiceNumberExists numb st.invoices then Except.error ApiErr.duplicateNumber
      else finish numb st
    else
      let pair := reserveNextInvoiceNumber when st
      finish pair.1 pair.2
  | Option.none =>
    let pair := reserveNextInvoiceNumber when st
    finish pair.1 pair.2

/-- `_create_invoice_record` (src/server.py lines 739-753). -/
def createInvoiceRecord (when : PyDT) (number : String) (orderId : Option String)
    (storedFilename : Option String) (publicUrl : Option String) (status : String)
    (nowIso : String) (st : St) : Invoice × St :=
  let k := st.invoices.length + 1
  let r : Invoice :=
    { id := "inv_" ++ pyIntRepr when.ts ++ "_" ++ pyIntRepr k, number := number,
      orderId := orderId, status := status, date := when.iso ++ "Z",
      fileName := storedFilename, fileUrl := publicUrl, createdAt := nowIso,
      updatedAt := Option.none }
  (r, { st with invoices := st.invoices ++ [r] })

/-- The payload keys `POST /api/invoices/json` accesses (its `date` is
consumed by `_parse_iso_date_or_now`, modelled by the `when` argument). -/
structure InvoiceJsonPayload where
  orderId : Option PyVal
  number : Option PyVal
  fileUrl : Option PyVal
  status : Option PyVal

/-- `create_invoice_json` = `POST /api/invoices/json` (src/server.py
lines 826-870): a truthy explicit number is stripped, must be non-empty
and unused (else 400 before any write); otherwise a number is reserved;
a status outside `ALLOWED_STATUSES` is silently replaced by `""`. -/
def createInvoiceJson (p : InvoiceJsonPayload) (when : PyDT) (nowIso : String) (st : St) :
    Except ApiErr (Invoice × St) :=
  let statusRaw := pyStrip (pyStr (p.status.getD (PyVal.strV "")))
  let status := if allowedStatus statusRaw then statusRaw else ""
  let orderIdArg : Option String :=
    match p.orderId with
    | some v => if pyTruthy v then some (pyStr v) else Option.none
    | Option.none => Option.none
  let fileUrlArg : Option String :=
    match p.fileUrl with
    | some v => if pyTruthy v then some (pyStr v) else Option.none
    | Option.none => Option.none
  let explicitTruthy :=
    match p.number with
    | some v => pyTruthy v
    | Option.none => false
  if explicitTruthy then
    let numb := pyStrip (pyStr (p.number.getD PyVal.nullV))
    if numb = "" then Except.error (ApiErr.missingField "number")
    else if invoiceNumberExists numb st.invoices then Except.error ApiErr.duplicateNumber
    else Except.ok (createInvoiceRecord when numb orderIdArg Option.none fileUrlArg status nowIso st)
  else
    let pair := reserveNextInvoiceNumber when st
    Except.ok (createInvoiceRecord when pair.1 orderIdArg Option.none fileUrlArg status nowIso pair.2)

/-- `preview_next_invoice_number` = `GET /api/invoices/next-number`
(src/server.py lines 812-824): reservation is the default; only an
explicit `reserve` whose lowercase form is outside `("1","true","yes")`
gives the non-persisting preview.  (The no-cache response headers are
presentation only and not modelled.) -/
def previewNextInvoiceNumber (when : PyDT) (reserve : Option String) (st : St) : String × St :=
  let doReserve :=
    match reserve with
    | Option.none => true
    | some r => pyLower r == "1" || pyLower r == "true" || pyLower r == "yes"
  if doReserve then reserveNextInvoiceNumber when st
  else (nextInvoiceNumber when st.invoices, st)

/-- `attach_invoice_file` = `PATCH /api/invoices/{id}/file` (src/server.py
lines 872-901): 404 when no invoice has the id, else set the stored
filename and public url on the first match. -/
def attachInvoiceFile (invoiceId : String) (f : FileForm) (st : St) : Except ApiErr (Invoice × St) :=
  match st.invoices.find? (fun i => i.id == invoiceId) with
  | Option.none => Except.error (ApiErr.notFound "Invoice not found")
  | some target =>
    let stored := target.number ++ "_" ++ pyPathName (truthyOrStr f.filename "invoice.bin")
    let url := "/static/invoices/" ++ stored
    let upd := fun (i : Invoice) => { i with fileName := some stored, fileUrl := some url }
    Except.ok (upd target, { st with invoices := updateFirst (fun i => i.id == invoiceId) upd st.invoices })

/-- `update_invoice_status` = `PATCH /api/invoices/{id}/status`
(src/server.py lines 904-938). -/
def updateInvoiceStatus (invoiceId : String) (p : StatusPayload) (nowIso : String) (st : St) :
    Except ApiErr (Invoice × St) :=
  let status := pyStrip (pyStr (p.status.getD (PyVal.strV "")))
  if !allowedStatus status then Except.error ApiErr.invalidStatus
  else
    match st.invoices.find? (fun i => i.id == invoiceId) with
    | Option.none => Except.error (ApiErr.notFound "Invoice not found")
    | some i =>
      let upd := fun (x : Invoice) => { x with status := status, updatedAt := some nowIso }
      Except.ok (upd i, { st with invoices := updateFirst (fun x => x.id == invoiceId) upd st.invoices })

/-- `delete_invoice` = `DELETE /api/invoices/{id}` (src/server.py lines
941-985): 404 when no invoice has the id, else pop the first match (the
attachment file unlink is outside the store model). -/
def deleteInvoice (invoiceId : String) (st : St) : Except ApiErr St :=
  if st.invoices.any (fun i => i.id == invoiceId) then
    Except.ok { st with invoices := removeFirst (fun i => i.id == invoiceId) st.invoices }
  else Except.error (ApiErr.notFound "Invoice not found")

/-- Modelled from the spec: src/ has no handler for
`DELETE /api/managers/{id}` (src/server.py defines delete endpoints only
for orders and invoices), so this definition follows the words of
spec.md sections 6 and 8: a not-found failure when no manager matches,
otherwise remove exactly one matching entry and return the deleted id
and the new count. -/
def deleteManager (managerId : String) (st : St) : Except ApiErr ((String × Nat) × St) :=
  if st.managers.any (fun m => m.id == managerId) then
    let ms := removeFirst (fun m => m.id == managerId) st.managers
    Except.ok ((managerId, ms.length), { st with managers := ms })
  else Except.error (ApiErr.notFound "Manager not found")

/-! ## Flat-file store (src/server.py lines 110-220)

`read_text` on a file is modelled by its possible outcomes: the file is
missing, reading raises `OSError`/`IOError`, the bytes are not valid
UTF-8 (in Python `read_text(encoding="utf-8")` then raises
`UnicodeDecodeError`, which is a `ValueError` and not a member of the
caught tuple `(json.JSONDecodeError, IOError, OSError)`), or a decoded
text is obtained.  `json.loads` is modelled by an executable parser for
the JSON fragment this application stores (null, booleans, integers,
strings without `\u` escapes, arrays, objects; JSON floats do not occur
in the application data and are not modelled). -/

/-- Decimal value of a digit list (most significant first). -/
def digitsVal (l : List Char) : Nat := l.foldl (fun a c => a * 10 + (c.toNat - 48)) 0

/-- JSON insignificant whitespace. -/
def jIsWs (c : Char) : Bool := c.toNat == 32 || c.toNat == 9 || c.toNat == 10 || c.toNat == 13

/-- Skip JSON whitespace. -/
def jSkipWs (cs : List Char) : List Char := cs.dropWhile jIsWs

/-- One-character JSON string escapes. -/
def jEsc (c : Char) : Option Char :=
  match c.toNat with
  | 34 => some (Char.ofNat 34)
  | 92 => some (Char.ofNat 92)
  | 47 => some (Char.ofNat 47)
  | 110 => some (Char.ofNat 10)
  | 116 => some (Char.ofNat 9)
  | 114 => some (Char.ofNat 13)
  | 98 => some (Char.ofNat 8)
  | 102 => some (Char.ofNat 12)
  | _ => Option.none

/-- JSON string body scanner (after the opening quote); the flag records
a pending backslash. -/
def jStrGo : List Char → List Char → Bool → Option (String × List Char)
  | [], _, _ => Option.none
  | c :: rest, acc, true =>
    match jEsc c with
    | some ch => jStrGo rest (ch :: acc) false
    | Option.none => Option.none
  | c :: rest, acc, false =>
    if c == '"' then some (String.mk acc.reverse, rest)
    else if c == '\\' then jStrGo rest acc true
    else jStrGo rest (c :: acc) false

/-- JSON unsigned integer: digits without an insignificant leading zero,
not followed by a fraction or exponent (floats are unmodelled). -/
def jIntNat (cs : List Char) : Option (Nat × List Char) :=
  let ds := cs.takeWhile pyIsDigit
  let rest := cs.dropWhile pyIsDigit
  if ds.isEmpty then Option.none
  else if 1 < ds.length && ds.headD 'x' == '0' then Option.none
  else
    match rest with
    | c :: _ =>
      if c == '.' || c == 'e' || c == 'E' then Option.none else some (digitsVal ds, rest)
    | [] => some (digitsVal ds, rest)

/-- JSON integer with optional minus sign. -/
def jInt : List Char → Option (Int × List Char)
  | '-' :: rest => (jIntNat rest).map (fun p => (-(p.1 : Int), p.2))
  | cs => (jIntNat cs).map (fun p => ((p.1 : Int), p.2))

/-- What the JSON machine is currently parsing: a single value, the
items of an array (accumulator reversed), or the members of an object. -/
inductive JReq where
  | value : JReq
  | arrItems : List PyDoc → JReq
  | objItems : List (String × PyDoc) → JReq

/-- The result of one JSON machine task. -/
inductive JOut where
  | oVal : PyDoc → JOut
  | oArr : List PyDoc → JOut
  | oObj : List (String × PyDoc) → JOut

/-- The fueled JSON parsing machine (structurally recursive on the fuel;
one unit of fuel per grammar step, so `2 * length + 8` always covers a
parseable input). -/
def jGo : Nat → JReq → List Char → Option (JOut × List Char)
  | 0, _, _ => Option.none
  | f + 1, JReq.value, cs0 =>
    let cs := jSkipWs cs0
    match cs with
    | [] => Option.none
    | c :: rest =>
      if c == '"' then (jStrGo rest [] false).map (fun p => (JOut.oVal (PyDoc.strD p.1), p.2))
      else if c == '[' then
        match jGo f (JReq.arrItems []) rest with
        | some (JOut.oArr l, cs2) => some (JOut.oVal (PyDoc.listD l), cs2)
        | _ => Option.none
      else if c == Char.ofNat 123 then
        match jGo f (JReq.objItems []) rest with
        | some (JOut.oObj l, cs2) => some (JOut.oVal (PyDoc.dictD l), cs2)
        | _ => Option.none
      else if startsWithL "true".data cs then some (JOut.oVal (PyDoc.boolD true), cs.drop 4)
      else if startsWithL "false".data cs then some (JOut.oVal (PyDoc.boolD false), cs.drop 5)
      else if startsWithL "null".data cs then some (JOut.oVal PyDoc.nullD, cs.drop 4)
      else
        match jInt cs with
        | some (n, cs2) => some (JOut.oVal (PyDoc.intD n), cs2)
        | Option.none => Option.none
  | f + 1, JReq.arrItems acc, cs0 =>
    let cs := jSkipWs cs0
    match cs with
    | [] => Option.none
    | c :: rest =>
      if c == ']' && acc.isEmpty then some (JOut.oArr [], rest)
      else
        match jGo f JReq.value cs with
        | some (JOut.oVal v, cs2) =>
          match jSkipWs cs2 with
          | ',' :: cs3 => jGo f (JReq.arrItems (v :: acc)) cs3
          | ']' :: cs3 => some (JOut.oArr (v :: acc).reverse, cs3)
          | _ => Option.none
        | _ => Option.none
  | f + 1, JReq.objItems acc, cs0 =>
    let cs := jSkipWs cs0
    match cs with
    | [] => Option.none
    | c :: rest =>
      if c == Char.ofNat 125 && acc.isEmpty then some (JOut.oObj [], rest)
      else if c == '"' then
        match jStrGo rest [] false with
        | some (key, cs2) =>
          match jSkipWs cs2 with
          | ':' :: cs3 =>
            match jGo f JReq.value cs3 with
            | some (JOut.oVal v, cs4) =>
              match jSkipWs cs4 with
              | ',' :: cs5 => jGo f (JReq.objItems ((key, v) :: acc)) cs5
              | d :: cs5 =>
                if d == Char.ofNat 125 then some (JOut.oObj ((key, v) :: acc).reverse, cs5)
                else Option.none
              | [] => Option.none
            | _ => Option.none
          | _ => Option.none
        | Option.none => Option.none
      else Option.none

/-- `json.loads` on the modelled fragment: parse one value and require
only whitespace after it; `Option.none` models `json.JSONDecodeError`. -/
def pyJsonLoads (s : String) : Option PyDoc :=
  match jGo (2 * s.data.length + 8) JReq.value s.data with
  | some (JOut.oVal v, rest) => if (jSkipWs rest).isEmpty then some v else Option.none
  | _ => Option.none

/-- The outcome of `Path.read_text(encoding="utf-8")` together with the
preceding `Path.exists()` check. `decodeErr` is a file whose bytes are
not valid UTF-8 (for example a single `0xFF` byte). -/
inductive ReadSt where
  | missing : ReadSt
  | osErr : ReadSt
  | decodeErr : ReadSt
  | okText : String → ReadSt

/-- The one exception class the load helpers can let escape. -/
inductive PyExn where
  | unicodeDecodeError : PyExn

/-- `_load_list` (src/server.py lines 161-176), also the body of
`_load_records` (lines 110-125): missing file, caught read errors, blank
text, malformed JSON and non-list JSON give `[]`; a `UnicodeDecodeError`
is not in the caught tuple and escapes. -/
def loadList (r : ReadSt) : Except PyExn (List PyDoc) :=
  match r with
  | ReadSt.missing => Except.ok []
  | ReadSt.osErr => Except.ok []
  | ReadSt.decodeErr => Except.error PyExn.unicodeDecodeError
  | ReadSt.okText raw =>
    if raw = "" || pyStrip raw = "" then Except.ok []
    else
      match pyJsonLoads raw with
      | Option.none => Except.ok []
      | some (PyDoc.listD l) => Except.ok l
      | some _ => Except.ok []

/-- `_load_records` (src/server.py lines 110-125): identical logic to
`_load_list`, fixed to the records file. -/
def loadRecords (r : ReadSt) : Except PyExn (List PyDoc) := loadList r

/-- `_load_dict` (src/server.py lines 200-215): the dict analogue. -/
def loadDict (r : ReadSt) : Except PyExn (List (String × PyDoc)) :=
  match r with
  | ReadSt.missing => Except.ok []
  | ReadSt.osErr => Except.ok []
  | ReadSt.decodeErr => Except.error PyExn.unicodeDecodeError
  | ReadSt.okText raw =>
    if raw = "" || pyStrip raw = "" then Except.ok []
    else
      match pyJsonLoads raw with
      | Option.none => Except.ok []
      | some (PyDoc.dictD d) => Except.ok d
      | some _ => Except.ok []

/-! ## The operations of the system

One constructor per store-touching endpoint (the read-only listing and
history endpoints never write and are summarised by `readOnlyOp`). -/

/-- An API operation with its request data. -/
inductive Op where
  | createRecordOp : RecPayload → String → Op
  | upsertManagerOp : ManagerPayload → Op
  | createOrderOp : OrderPayload → Int → String → String → Op
  | updateOrderStatusOp : String → StatusPayload → String → Op
  | deleteOrderOp : String → Op
  | createInvoiceOp : PyDT → Option String → Option String → Option FileForm → String → Op
  | createInvoiceJsonOp : InvoiceJsonPayload → PyDT → String → Op
  | previewNextNumberOp : PyDT → Option String → Op
  | attachFileOp : String → FileForm → Op
  | updateInvoiceStatusOp : String → StatusPayload → String → Op
  | deleteInvoiceOp : String → Op
  | deleteManagerOp : String → Op
  | readOnlyOp : Op

/-- The store state after an operation (a raised `HTTPException` leaves
the store as it was). -/
def stepSt : Op → St → St
  | Op.createRecordOp p now, st => resultSt (createRecord p now st) st
  | Op.upsertManagerOp p, st => resultSt (createOrUpdateManager p st) st
  | Op.createOrderOp p ts rand now, st => (createOrder p ts rand now st).2
  | Op.updateOrderStatusOp oid p now, st => resultSt (updateOrderStatus oid p now st) st
  | Op.deleteOrderOp oid, st =>
    match deleteOrder oid st with
    | Except.ok s => s
    | Except.error _ => st
  | Op.createInvoiceOp when n o f now, st => resultSt (createInvoice when n o f now st) st
  | Op.createInvoiceJsonOp p when now, st => resultSt (createInvoiceJson p when now st) st
  | Op.previewNextNumberOp when r, st => (previewNextInvoiceNumber when r st).2
  | Op.attachFileOp iid f, st => resultSt (attachInvoiceFile iid f st) st
  | Op.updateInvoiceStatusOp iid p now, st => resultSt (updateInvoiceStatus iid p now st) st
  | Op.deleteInvoiceOp iid, st =>
    match deleteInvoice iid st with
    | Except.ok s => s
    | Except.error _ => st
  | Op.deleteManagerOp mid, st => resultSt (deleteManager mid st) st
  | Op.readOnlyOp, st => st

/-! ## Derived specification notions used by the theorems -/

/-- Monotone evolution of the counter dict: every key's value is
unchanged or strictly increased, and no existing entry disappears. -/
def countersMono (old new : List (String × Int)) : Prop :=
  ∀ k : String,
    (dictGet new k 0 = dictGet old k 0 ∨ dictGet old k 0 < dictGet new k 0) ∧
    ((dictLookup old k).isSome = true → (dictLookup new k).isSome = true)

/-! ## Fixtures for witnesses and counterexamples -/

def dtW : PyDT := { year := 2025, month := 3, ts := 100, iso := "2025-03-01T00:00:00" }

def invFix (num : String) : Invoice :=
  { id := "inv1", number := num, orderId := Option.none, status := "", date := "d",
    fileName := Option.none, fileUrl := Option.none, createdAt := "c", updatedAt := Option.none }

def stW : St := { emptySt with invoices := [invFix "03-001"], counters := [("2024-03", 1)] }

def ordFix : Order :=
  { id := "o1", companyName := "", nameCompanyRaw := PyVal.strV "", companyBin := "",
    binCompanyRaw := PyVal.strV "", managerId := "", status := "", fullData := PyDoc.dictD [],
    createdAt := "c", updatedAt := "c" }

def stOrd : St := { emptySt with orders := [ordFix] }

def stMgr : St := { emptySt with managers := [{ id := "m1", name := "A" }] }

def emptyOrderPayload : OrderPayload :=
  { id := Option.none, nameCompany := Option.none, companyName := Option.none,
    binCompany := Option.none, companyBin := Option.none, idManager := Option.none,
    managerId := Option.none, fullData := Option.none, status := Option.none }

def emptyInvJsonPayload : InvoiceJsonPayload :=
  { orderId := Option.none, number := Option.none, fileUrl := Option.none, status := Option.none }

def c3px : InvoiceJsonPayload := { emptyInvJsonPayload with number := some (PyVal.strV "03-005") }

def c3st1 : St := (reserveNextInvoiceNumber dtW emptySt).2

def c3st2 : St := resultSt (createInvoiceJson c3px dtW "t1" c3st1) c3st1

def mgrPayloadW : ManagerPayload := { id := some (PyVal.strV " "), name := some (PyVal.strV "x") }

def recPayloadW : RecPayload :=
  { id := Option.none, name := some (PyVal.strV "n"), date := some (PyVal.strV "d"),
    file := some (PyVal.strV "f"), fileUrl := Option.none }

def recPayloadEmptyW : RecPayload :=
  { id := Option.none, name := Option.none, date := Option.none, file := Option.none,
    fileUrl := Option.none }

def recPayloadNoName : RecPayload :=
  { id := some (PyVal.strV "i"), name := Option.none, date := some (PyVal.strV "d"),
    file := some (PyVal.strV "f"), fileUrl := Option.none }

def recPayloadNoDate : RecPayload :=
  { id := some (PyVal.strV "i"), name := some (PyVal.strV "n"), date := Option.none,
    file := some (PyVal.strV "f"), fileUrl := Option.none }

def recPayloadNoFile : RecPayload :=
  { id := some (PyVal.strV "i"), name := some (PyVal.strV "n"), date := some (PyVal.strV "d"),
    file := Option.none, fileUrl := Option.none }

def recPayloadFull : RecPayload :=
  { id := some (PyVal.strV "i"), name := some (PyVal.strV "n"), date := some (PyVal.strV "d"),
    file := some (PyVal.strV "f"), fileUrl := Option.none }

def blankNumberPayloadW : InvoiceJsonPayload :=
  { emptyInvJsonPayload with number := some (PyVal.strV "  ") }


/-! ## Lemmas: decimal digits, formatting and parsing round trip -/

theorem toNat_digitChar {d : Nat} (h : d < 10) : (digitChar d).toNat = 48 + d := by
  have : ∀ e, e < 10 → (digitChar e).toNat = 48 + e := by decide
  exact this d h

theorem pyIsDigit_digitChar {d : Nat} (h : d < 10) : pyIsDigit (digitChar d) = true := by
  have : ∀ e, e < 10 → pyIsDigit (digitChar e) = true := by decide
  exact this d h

theorem natDigitsAux_all_digits : ∀ f n, n < f → (natDigitsAux f n).all pyIsDigit = true := by
  intro f
  induction f with
  | zero => intro n h; omega
  | succ f ih =>
    intro n h
    by_cases h10 : n < 10
    · simp [natDigitsAux, h10, List.all_cons, pyIsDigit_digitChar h10]
    · have hdiv : n / 10 < n := Nat.div_lt_self (by omega) (by omega)
      simp only [natDigitsAux, if_neg h10, List.all_append, List.all_cons, List.all_nil,
        Bool.and_eq_true]
      refine ⟨ih (n / 10) (by omega), pyIsDigit_digitChar (Nat.mod_lt n (by omega)), trivial⟩

theorem natDigitsAux_ne_nil : ∀ f n, n < f → natDigitsAux f n ≠ [] := by
  intro f
  induction f with
  | zero => intro n h; omega
  | succ f ih =>
    intro n h
    by_cases h10 : n < 10
    · simp [natDigitsAux, h10]
    · simp [natDigitsAux, h10]

theorem natDigits_all_digits (n : Nat) : (natDigits n).all pyIsDigit = true :=
  natDigitsAux_all_digits (n + 1) n (Nat.lt_succ_self n)

theorem natDigits_ne_nil (n : Nat) : natDigits n ≠ [] :=
  natDigitsAux_ne_nil (n + 1) n (Nat.lt_succ_self n)

theorem foldl_digits_natDigitsAux :
    ∀ f n a, n < f →
      (natDigitsAux f n).foldl (fun x c => x * 10 + (c.toNat - 48)) a =
        a * 10 ^ (natDigitsAux f n).length + n := by
  intro f
  induction f with
  | zero => intro n a h; omega
  | succ f ih =>
    intro n a h
    by_cases h10 : n < 10
    · simp [natDigitsAux, h10, toNat_digitChar h10]
    · have hdiv : n / 10 < n := Nat.div_lt_self (by omega) (by omega)
      have hrec := ih (n / 10) a (by omega)
      simp only [natDigitsAux, if_neg h10, List.foldl_append, List.foldl_cons, List.foldl_nil,
        List.length_append, List.length_cons, List.length_nil, hrec]
      have hmod : (digitChar (n % 10)).toNat - 48 = n % 10 := by
        rw [toNat_digitChar (Nat.mod_lt n (by omega))]; omega
      rw [hmod, pow_succ]
      have := Nat.div_add_mod n 10
      ring_nf
      omega

theorem digitsVal_natDigits (n : Nat) : digitsVal (natDigits n) = n := by
  have := foldl_digits_natDigitsAux (n + 1) n 0 (Nat.lt_succ_self n)
  simpa [digitsVal, natDigits] using this

theorem foldl_digits_replicate_zero (k : Nat) :
    (List.replicate k '0').foldl (fun x c => x * 10 + (c.toNat - 48)) 0 = 0 := by
  induction k with
  | zero => rfl
  | succ k ih => simpa [List.replicate_succ] using ih

theorem digitsVal_zfill (w : Nat) (l : List Char) : digitsVal (zfill w l) = digitsVal l := by
  simp [zfill, digitsVal, List.foldl_append, foldl_digits_replicate_zero]

theorem zfill_all_digits {w : Nat} {l : List Char} (h : l.all pyIsDigit = true) :
    (zfill w l).all pyIsDigit = true := by
  simp only [zfill, List.all_append, Bool.and_eq_true]
  refine ⟨?_, h⟩
  simp only [List.all_eq_true]
  intro c hc
  rw [List.eq_of_mem_replicate hc]
  decide

theorem zfill_ne_nil {w : Nat} {l : List Char} (h : l ≠ []) : zfill w l ≠ [] := by
  simp [zfill]
  intro _
  exact h

theorem char_toNat_inj {c d : Char} (h : c = d) : c.toNat = d.toNat := by rw [h]

theorem pyIsDigit_toNat {c : Char} (h : pyIsDigit c = true) : 48 ≤ c.toNat ∧ c.toNat ≤ 57 := by
  simpa [pyIsDigit, Bool.and_eq_true, decide_eq_true_eq] using h

theorem pyIsDigit_not_space {c : Char} (h : pyIsDigit c = true) : pySpace c = false := by
  obtain ⟨h1, h2⟩ := pyIsDigit_toNat h
  simp only [pySpace, Bool.or_eq_false_iff, beq_eq_false_iff_ne]
  omega

theorem pyIsDigit_ne_char {c d : Char} (h : pyIsDigit c = true) (hd : pyIsDigit d = false) :
    c ≠ d := by
  intro he
  rw [he] at h
  rw [h] at hd
  exact absurd hd (by decide)

theorem dropWhile_eq_self_of_head_digit :
    ∀ {l : List Char}, (∀ c ∈ l, pyIsDigit c = true) → l.dropWhile pySpace = l := by
  intro l h
  cases l with
  | nil => rfl
  | cons c rest =>
    have hc : pyIsDigit c = true := h c (List.mem_cons_self c rest)
    simp [List.dropWhile_cons, pyIsDigit_not_space hc]

theorem pyStripL_digits {l : List Char} (h : ∀ c ∈ l, pyIsDigit c = true) : pyStripL l = l := by
  unfold pyStripL
  rw [dropWhile_eq_self_of_head_digit h]
  have hrev : ∀ c ∈ l.reverse, pyIsDigit c = true := by
    intro c hc
    exact h c (List.mem_reverse.mp hc)
  rw [dropWhile_eq_self_of_head_digit hrev, List.reverse_reverse]

theorem pyDigitsGo_digits :
    ∀ l a, (∀ c ∈ l, pyIsDigit c = true) →
      pyDigitsGo l a false = some (l.foldl (fun x c => x * 10 + (c.toNat - 48)) a) := by
  intro l
  induction l with
  | nil => intro a _; rfl
  | cons c rest ih =>
    intro a h
    have hc : pyIsDigit c = true := h c (List.mem_cons_self c rest)
    simp only [pyDigitsGo, hc, if_true, List.foldl_cons]
    exact ih _ (fun d hd => h d (List.mem_cons_of_mem c hd))

theorem pyIntDigits_digits {l : List Char} (hne : l ≠ [])
    (h : ∀ c ∈ l, pyIsDigit c = true) : pyIntDigits l = some (digitsVal l) := by
  cases l with
  | nil => exact absurd rfl hne
  | cons c rest =>
    have hc : pyIsDigit c = true := h c (List.mem_cons_self c rest)
    have hrest : ∀ d ∈ rest, pyIsDigit d = true := fun d hd => h d (List.mem_cons_of_mem c hd)
    simp only [pyIntDigits, hc, if_true, pyDigitsGo_digits rest (c.toNat - 48) hrest,
      digitsVal, List.foldl_cons]
    norm_num

theorem pyIntOfString_digits {l : List Char} (hne : l ≠ [])
    (h : ∀ c ∈ l, pyIsDigit c = true) :
    pyIntOfString (String.mk l) = some ((digitsVal l : Nat) : Int) := by
  have hdata : (String.mk l).data = l := rfl
  unfold pyIntOfString
  rw [hdata, pyStripL_digits h]
  cases l with
  | nil => exact absurd rfl hne
  | cons c rest =>
    have hc : pyIsDigit c = true := h c (List.mem_cons_self c rest)
    have hplus : c ≠ '+' := pyIsDigit_ne_char hc (by decide)
    have hminus : c ≠ '-' := pyIsDigit_ne_char hc (by decide)
    have := pyIntDigits_digits hne h
    split
    next rest2 heq =>
      exact absurd (List.head_eq_of_cons_eq heq) hplus
    next rest2 heq =>
      exact absurd (List.head_eq_of_cons_eq heq) hminus
    next l2 hne1 hne2 =>
      rw [this]
      rfl

/-! ## Lemmas: split, startswith, String plumbing -/

theorem string_data_append (a b : String) : (a ++ b).data = a.data ++ b.data := rfl

theorem string_mk_data (s : String) : String.mk s.data = s := rfl

theorem splitChAux_sepfree {c : Char} :
    ∀ {l : List Char} (acc : List Char), (∀ x ∈ l, (x == c) = false) →
      splitChAux c l acc = [acc.reverse ++ l] := by
  intro l
  induction l with
  | nil => intro acc _; simp [splitChAux]
  | cons x xs ih =>
    intro acc h
    have hx : (x == c) = false := h x (List.mem_cons_self x xs)
    simp only [splitChAux, hx, Bool.false_eq_true, if_false]
    rw [ih (x :: acc) (fun y hy => h y (List.mem_cons_of_mem x hy))]
    simp

theorem splitChAux_append {c : Char} :
    ∀ {l₁ : List Char} (acc l₂ : List Char), (∀ x ∈ l₁, (x == c) = false) →
      splitChAux c (l₁ ++ c :: l₂) acc = (acc.reverse ++ l₁) :: splitChAux c l₂ [] := by
  intro l₁
  induction l₁ with
  | nil => intro acc l₂ _; simp [splitChAux]
  | cons x xs ih =>
    intro acc l₂ h
    have hx : (x == c) = false := h x (List.mem_cons_self x xs)
    simp only [List.cons_append, splitChAux, hx, Bool.false_eq_true, if_false, List.append_eq]
    rw [ih (x :: acc) l₂ (fun y hy => h y (List.mem_cons_of_mem x hy))]
    simp

theorem pySplitChar_two {c : Char} {l₁ l₂ : List Char}
    (h₁ : ∀ x ∈ l₁, (x == c) = false) (h₂ : ∀ x ∈ l₂, (x == c) = false) :
    pySplitChar c (String.mk (l₁ ++ c :: l₂)) = [String.mk l₁, String.mk l₂] := by
  unfold pySplitChar
  have hdata : (String.mk (l₁ ++ c :: l₂)).data = l₁ ++ c :: l₂ := rfl
  rw [hdata, splitChAux_append [] l₂ h₁, splitChAux_sepfree [] h₂]
  simp

theorem startsWithL_append (p r : List Char) : startsWithL p (p ++ r) = true := by
  induction p with
  | nil => rfl
  | cons x xs ih => simp [startsWithL, ih]

theorem startsWithL_exists :
    ∀ {p s : List Char}, startsWithL p s = true → ∃ r, s = p ++ r := by
  intro p
  induction p with
  | nil => intro s _; exact ⟨s, rfl⟩
  | cons x xs ih =>
    intro s h
    cases s with
    | nil => simp [startsWithL] at h
    | cons y ys =>
      simp only [startsWithL, Bool.and_eq_true, beq_iff_eq] at h
      obtain ⟨r, hr⟩ := ih h.2
      exact ⟨r, by simp [h.1, hr]⟩

theorem digit_ne_dash {x : Char} (hx : pyIsDigit x = true) : (x == '-') = false := by
  have : x ≠ '-' := pyIsDigit_ne_char hx (by decide)
  simpa using this

/-! ## Lemmas: the formatted number round trip -/

theorem all_digits_mem {l : List Char} (h : l.all pyIsDigit = true) :
    ∀ c ∈ l, pyIsDigit c = true := by
  intro c hc
  exact List.all_eq_true.mp h c hc

theorem pyFmt0Int_nonneg {k : Int} (hk : 0 ≤ k) :
    pyFmt0Int 3 k = String.mk (zfill 3 (natDigits k.toNat)) := by
  simp [pyFmt0Int, not_lt.mpr hk]

theorem monthPre_data (dt : PyDT) :
    (monthPre dt).data = zfill 2 (natDigits dt.month) ++ ['-'] := rfl

theorem suffixOfNum_self (dt : PyDT) {k : Int} (hk : 1 ≤ k) :
    suffixOfNum (monthPre dt) (monthPre dt ++ pyFmt0Int 3 k) = some k := by
  have hfmt : pyFmt0Int 3 k = String.mk (zfill 3 (natDigits k.toNat)) :=
    pyFmt0Int_nonneg (by omega)
  have hall1 : ∀ c ∈ zfill 2 (natDigits dt.month), pyIsDigit c = true :=
    all_digits_mem (zfill_all_digits (natDigits_all_digits dt.month))
  have hall2 : ∀ c ∈ zfill 3 (natDigits k.toNat), pyIsDigit c = true :=
    all_digits_mem (zfill_all_digits (natDigits_all_digits k.toNat))
  have hsf1 : ∀ x ∈ zfill 2 (natDigits dt.month), (x == '-') = false :=
    fun x hx => digit_ne_dash (hall1 x hx)
  have hsf2 : ∀ x ∈ zfill 3 (natDigits k.toNat), (x == '-') = false :=
    fun x hx => digit_ne_dash (hall2 x hx)
  have hsw : pyStartsWith (monthPre dt) (monthPre dt ++ pyFmt0Int 3 k) = true := by
    unfold pyStartsWith
    rw [string_data_append]
    exact startsWithL_append _ _
  have hdata : (monthPre dt ++ pyFmt0Int 3 k).data =
      zfill 2 (natDigits dt.month) ++ '-' :: zfill 3 (natDigits k.toNat) := by
    rw [string_data_append, monthPre_data, hfmt]
    simp
  have hstr : monthPre dt ++ pyFmt0Int 3 k =
      String.mk (zfill 2 (natDigits dt.month) ++ '-' :: zfill 3 (natDigits k.toNat)) := by
    rw [← hdata, string_mk_data]
  have hsplit : pySplitChar '-' (monthPre dt ++ pyFmt0Int 3 k) =
      [String.mk (zfill 2 (natDigits dt.month)), String.mk (zfill 3 (natDigits k.toNat))] := by
    rw [hstr]
    exact pySplitChar_two hsf1 hsf2
  have hne2 : zfill 3 (natDigits k.toNat) ≠ [] := zfill_ne_nil (natDigits_ne_nil _)
  have hparse : pyIntOfString (String.mk (zfill 3 (natDigits k.toNat))) =
      some ((digitsVal (zfill 3 (natDigits k.toNat)) : Nat) : Int) :=
    pyIntOfString_digits hne2 hall2
  have hval : digitsVal (zfill 3 (natDigits k.toNat)) = k.toNat := by
    rw [digitsVal_zfill, digitsVal_natDigits]
  unfold suffixOfNum
  rw [hsw, if_pos rfl, hsplit]
  simp only [List.getElem?_cons_succ, List.getElem?_cons_zero]
  rw [hparse, hval]
  congr 1
  omega

theorem parse_fmt3 {k : Int} (hk : 0 ≤ k) :
    pyIntOfString (String.mk (zfill 3 (natDigits k.toNat))) = some k := by
  have hall : ∀ c ∈ zfill 3 (natDigits k.toNat), pyIsDigit c = true :=
    all_digits_mem (zfill_all_digits (natDigits_all_digits k.toNat))
  rw [pyIntOfString_digits (zfill_ne_nil (natDigits_ne_nil _)) hall,
    digitsVal_zfill, digitsVal_natDigits]
  congr 1
  omega

theorem split_fmt_at1 (dt : PyDT) {k : Int} (hk : 0 ≤ k) :
    (pySplitChar '-' (monthPre dt ++ pyFmt0Int 3 k))[1]? =
      some (String.mk (zfill 3 (natDigits k.toNat))) := by
  have hfmt : pyFmt0Int 3 k = String.mk (zfill 3 (natDigits k.toNat)) := pyFmt0Int_nonneg hk
  have hsf1 : ∀ x ∈ zfill 2 (natDigits dt.month), (x == '-') = false := fun x hx =>
    digit_ne_dash (all_digits_mem (zfill_all_digits (natDigits_all_digits dt.month)) x hx)
  have hsf2 : ∀ x ∈ zfill 3 (natDigits k.toNat), (x == '-') = false := fun x hx =>
    digit_ne_dash (all_digits_mem (zfill_all_digits (natDigits_all_digits k.toNat)) x hx)
  have hdata : (monthPre dt ++ pyFmt0Int 3 k).data =
      zfill 2 (natDigits dt.month) ++ '-' :: zfill 3 (natDigits k.toNat) := by
    rw [string_data_append, monthPre_data, hfmt]
    simp
  have hstr : monthPre dt ++ pyFmt0Int 3 k =
      String.mk (zfill 2 (natDigits dt.month) ++ '-' :: zfill 3 (natDigits k.toNat)) := by
    rw [← hdata, string_mk_data]
  rw [hstr, pySplitChar_two hsf1 hsf2]
  rfl

/-! ## Lemmas: the month scan fold -/

theorem suffixUpd_ge (pre : String) (acc : Int) (inv : Invoice) : acc ≤ suffixUpd pre acc inv := by
  unfold suffixUpd
  cases suffixOfNum pre inv.number with
  | none => exact le_refl acc
  | some s =>
    dsimp only
    split <;> omega

theorem foldl_suffixUpd_ge (pre : String) :
    ∀ (l : List Invoice) (a : Int), a ≤ l.foldl (suffixUpd pre) a := by
  intro l
  induction l with
  | nil => intro a; exact le_refl a
  | cons x xs ih =>
    intro a
    exact le_trans (suffixUpd_ge pre a x) (ih (suffixUpd pre a x))

theorem monthMaxSuffix_nonneg (pre : String) (invs : List Invoice) :
    0 ≤ monthMaxSuffix pre invs :=
  foldl_suffixUpd_ge pre invs 0

theorem foldl_suffixUpd_mem (pre : String) :
    ∀ {l : List Invoice} (a : Int) {inv : Invoice} {s : Int}, inv ∈ l →
      suffixOfNum pre inv.number = some s → s ≤ l.foldl (suffixUpd pre) a := by
  intro l
  induction l with
  | nil => intro a inv s h; exact absurd h (List.not_mem_nil inv)
  | cons x xs ih =>
    intro a inv s hmem hsome
    rcases List.mem_cons.mp hmem with heq | hmem2
    · subst heq
      have hstep : s ≤ suffixUpd pre a inv := by
        unfold suffixUpd
        rw [hsome]
        dsimp only
        split <;> omega
      exact le_trans hstep (foldl_suffixUpd_ge pre xs _)
    · exact ih _ hmem2 hsome

theorem monthMaxSuffix_ge {pre : String} {invs : List Invoice} {inv : Invoice} {s : Int}
    (hmem : inv ∈ invs) (hsome : suffixOfNum pre inv.number = some s) :
    s ≤ monthMaxSuffix pre invs :=
  foldl_suffixUpd_mem pre 0 hmem hsome

theorem string_ext {a b : String} (h : a.data = b.data) : a = b := by
  cases a
  cases b
  simp only at h
  rw [h]

theorem pyFmt0Nat_data (w n : Nat) : (pyFmt0Nat w n).data = zfill w (natDigits n) := rfl

/-! ## Lemmas: the reserving computation in closed form -/

theorem reserve_eq (dt : PyDT) (st : St) :
    reserveNextInvoiceNumber dt st =
      (monthPre dt ++ pyFmt0Int 3
        (pyMax (dictGet st.counters (periodKey dt) 0) (monthMaxSuffix (monthPre dt) st.invoices) + 1),
       { st with counters := dictSet st.counters (periodKey dt) (pyMax (dictGet st.counters (periodKey dt) 0) (monthMaxSuffix (monthPre dt) st.invoices) + 1) }) := by
  have hM : 0 ≤ monthMaxSuffix (monthPre dt) st.invoices := monthMaxSuffix_nonneg _ _
  have hnext : nextInvoiceNumber dt st.invoices =
      monthPre dt ++ pyFmt0Int 3 (monthMaxSuffix (monthPre dt) st.invoices + 1) := rfl
  have hsplit := split_fmt_at1 (k := monthMaxSuffix (monthPre dt) st.invoices + 1) dt (by omega)
  have hparse := parse_fmt3 (k := monthMaxSuffix (monthPre dt) st.invoices + 1) (by omega)
  unfold reserveNextInvoiceNumber
  rw [hnext, hsplit]
  dsimp only
  rw [hparse]
  dsimp only
  rw [show monthMaxSuffix (monthPre dt) st.invoices + 1 - 1 =
      monthMaxSuffix (monthPre dt) st.invoices from by omega]
  have hcomp : pyFmt0Nat 2 dt.month ++ "-" ++
      pyFmt0Int 3 (pyMax (dictGet st.counters (periodKey dt) 0) (monthMaxSuffix (monthPre dt) st.invoices) + 1) =
      monthPre dt ++
      pyFmt0Int 3 (pyMax (dictGet st.counters (periodKey dt) 0) (monthMaxSuffix (monthPre dt) st.invoices) + 1) := by
    apply string_ext
    simp [string_data_append, monthPre_data, pyFmt0Nat_data]
  rw [hcomp]

/-! ## Lemmas: pyMax and the counter dict -/

theorem pyMax_ge_left (a b : Int) : a ≤ pyMax a b := by
  unfold pyMax
  split <;> omega

theorem pyMax_ge_right (a b : Int) : b ≤ pyMax a b := by
  unfold pyMax
  split <;> omega

theorem pyMax_eq_max (a b : Int) : pyMax a b = max a b := by
  rw [max_def]
  unfold pyMax
  split <;> split <;> omega

theorem dictGet_dictSet_self (d : List (String × Int)) (k : String) (v : Int) (dflt : Int) :
    dictGet (dictSet d k v) k dflt = v := by
  induction d with
  | nil => simp [dictSet, dictGet, List.find?]
  | cons kv rest ih =>
    by_cases hk : kv.1 = k
    · simp [dictSet, hk, dictGet, List.find?]
    · have hbeq : (kv.1 == k) = false := beq_eq_false_iff_ne.mpr hk
      simp only [dictSet, hbeq, Bool.false_eq_true, if_false]
      simpa [dictGet, List.find?_cons, hbeq] using ih

theorem dictGet_dictSet_ne (d : List (String × Int)) {k k2 : String} (v : Int) (dflt : Int)
    (h : k2 ≠ k) : dictGet (dictSet d k v) k2 dflt = dictGet d k2 dflt := by
  induction d with
  | nil =>
    have : (k == k2) = false := beq_eq_false_iff_ne.mpr (fun he => h he.symm)
    simp [dictSet, dictGet, List.find?, this]
  | cons kv rest ih =>
    by_cases hk : kv.1 = k
    · have hne : (k == k2) = false := beq_eq_false_iff_ne.mpr (fun he => h he.symm)
      have hne2 : (kv.1 == k2) = false := beq_eq_false_iff_ne.mpr (by rw [hk]; exact fun he => h he.symm)
      simp [dictSet, hk, dictGet, List.find?_cons, hne, hne2]
    · have hbeq : (kv.1 == k) = false := beq_eq_false_iff_ne.mpr hk
      simp only [dictSet, hbeq, Bool.false_eq_true, if_false]
      by_cases hk2 : kv.1 = k2
      · simp [dictGet, List.find?_cons, hk2]
      · have hbeq2 : (kv.1 == k2) = false := beq_eq_false_iff_ne.mpr hk2
        simpa [dictGet, List.find?_cons, hbeq2] using ih

theorem dictLookup_dictSet_self (d : List (String × Int)) (k : String) (v : Int) :
    dictLookup (dictSet d k v) k = some v := by
  induction d with
  | nil => simp [dictSet, dictLookup, List.find?]
  | cons kv rest ih =>
    by_cases hk : kv.1 = k
    · simp [dictSet, hk, dictLookup, List.find?]
    · have hbeq : (kv.1 == k) = false := beq_eq_false_iff_ne.mpr hk
      simp only [dictSet, hbeq, Bool.false_eq_true, if_false]
      simpa [dictLookup, List.find?_cons, hbeq] using ih

theorem dictLookup_dictSet_ne (d : List (String × Int)) {k k2 : String} (v : Int)
    (h : k2 ≠ k) : dictLookup (dictSet d k v) k2 = dictLookup d k2 := by
  induction d with
  | nil =>
    have : (k == k2) = false := beq_eq_false_iff_ne.mpr (fun he => h he.symm)
    simp [dictSet, dictLookup, List.find?, this]
  | cons kv rest ih =>
    by_cases hk : kv.1 = k
    · have hne : (k == k2) = false := beq_eq_false_iff_ne.mpr (fun he => h he.symm)
      have hne2 : (kv.1 == k2) = false := beq_eq_false_iff_ne.mpr (by rw [hk]; exact fun he => h he.symm)
      simp [dictSet, hk, dictLookup, List.find?_cons, hne, hne2]
    · have hbeq : (kv.1 == k) = false := beq_eq_false_iff_ne.mpr hk
      simp only [dictSet, hbeq, Bool.false_eq_true, if_false]
      by_cases hk2 : kv.1 = k2
      · simp [dictLookup, List.find?_cons, hk2]
      · have hbeq2 : (kv.1 == k2) = false := beq_eq_false_iff_ne.mpr hk2
        simpa [dictLookup, List.find?_cons, hbeq2] using ih

/-! ## Lemmas: freshness of a reserved number -/

theorem reserved_number_fresh (dt : PyDT) (st : St) :
    ∀ inv ∈ st.invoices, inv.number ≠ (reserveNextInvoiceNumber dt st).1 := by
  intro inv hmem heq
  have hM : 0 ≤ monthMaxSuffix (monthPre dt) st.invoices := monthMaxSuffix_nonneg _ _
  have hfst : (reserveNextInvoiceNumber dt st).1 =
      monthPre dt ++ pyFmt0Int 3
        (pyMax (dictGet st.counters (periodKey dt) 0) (monthMaxSuffix (monthPre dt) st.invoices) + 1) := by
    rw [reserve_eq]
  have hk : (1 : Int) ≤
      pyMax (dictGet st.counters (periodKey dt) 0) (monthMaxSuffix (monthPre dt) st.invoices) + 1 := by
    have := pyMax_ge_right (dictGet st.counters (periodKey dt) 0) (monthMaxSuffix (monthPre dt) st.invoices)
    omega
  have hsuf : suffixOfNum (monthPre dt) inv.number =
      some (pyMax (dictGet st.counters (periodKey dt) 0) (monthMaxSuffix (monthPre dt) st.invoices) + 1) := by
    rw [heq, hfst]
    exact suffixOfNum_self dt hk
  have hle := monthMaxSuffix_ge hmem hsuf
  have := pyMax_ge_right (dictGet st.counters (periodKey dt) 0) (monthMaxSuffix (monthPre dt) st.invoices)
  omega

/-! ## Lemmas: uniqueness preservation -/

theorem reserve_invoices (dt : PyDT) (st : St) :
    (reserveNextInvoiceNumber dt st).2.invoices = st.invoices := by
  rw [reserve_eq]

theorem pairwise_append_one {invs : List Invoice} {x : Invoice}
    (hp : List.Pairwise (fun a b => a.number ≠ b.number) invs)
    (hf : ∀ a ∈ invs, a.number ≠ x.number) :
    List.Pairwise (fun a b => a.number ≠ b.number) (invs ++ [x]) := by
  rw [List.pairwise_append]
  refine ⟨hp, List.pairwise_singleton _ _, ?_⟩
  intro a ha b hb
  have hbx : b = x := by simpa using hb
  rw [hbx]
  exact hf a ha

theorem numberExists_false {numb : String} {invs : List Invoice}
    (h : invoiceNumberExists numb invs = false) : ∀ a ∈ invs, a.number ≠ numb := by
  simpa [invoiceNumberExists, List.any_eq_false] using h

theorem createInvoice_pairwise (when : PyDT) (number orderId : Option String)
    (file : Option FileForm) (nowIso : String) (st : St)
    (hp : List.Pairwise (fun a b => a.number ≠ b.number) st.invoices) :
    List.Pairwise (fun a b => a.number ≠ b.number)
      (resultSt (createInvoice when number orderId file nowIso st) st).invoices := by
  unfold createInvoice
  cases number with
  | none =>
    dsimp only [resultSt]
    refine pairwise_append_one ?_ ?_
    · rw [reserve_invoices]; exact hp
    · rw [reserve_invoices]
      intro a ha
      exact reserved_number_fresh when st a ha
  | some s =>
    by_cases hcond : (s != "" && pyStrip s != "") = true
    · simp only [hcond, if_true]
      cases hex : invoiceNumberExists (pyStrip s) st.invoices with
      | true => simp only [hex, if_true, resultSt]; exact hp
      | false =>
        simp only [hex, Bool.false_eq_true, if_false, resultSt]
        exact pairwise_append_one hp (numberExists_false hex)
    · simp only [Bool.not_eq_true] at hcond
      simp only [hcond, Bool.false_eq_true, if_false, resultSt]
      refine pairwise_append_one ?_ ?_
      · rw [reserve_invoices]; exact hp
      · rw [reserve_invoices]
        intro a ha
        exact reserved_number_fresh when st a ha

theorem createInvoiceJson_pairwise (p : InvoiceJsonPayload) (when : PyDT) (nowIso : String)
    (st : St) (hp : List.Pairwise (fun a b => a.number ≠ b.number) st.invoices) :
    List.Pairwise (fun a b => a.number ≠ b.number)
      (resultSt (createInvoiceJson p when nowIso st) st).invoices := by
  unfold createInvoiceJson createInvoiceRecord
  dsimp only
  split
  · by_cases hnum : pyStrip (pyStr (p.number.getD PyVal.nullV)) = ""
    · simp only [hnum, if_pos rfl, resultSt]
      exact hp
    · simp only [if_neg hnum]
      cases hex : invoiceNumberExists (pyStrip (pyStr (p.number.getD PyVal.nullV))) st.invoices with
      | true => simp only [hex, if_true, resultSt]; exact hp
      | false =>
        simp only [hex, Bool.false_eq_true, if_false, resultSt]
        exact pairwise_append_one hp (numberExists_false hex)
  · dsimp only [resultSt]
    refine pairwise_append_one ?_ ?_
    · rw [reserve_invoices]; exact hp
    · rw [reserve_invoices]
      intro a ha
      exact reserved_number_fresh when st a ha

/-! ## Lemmas: counter monotonicity across operations -/

theorem countersMono_of_eq {old new : List (String × Int)} (h : new = old) :
    countersMono old new := by
  intro k
  rw [h]
  exact ⟨Or.inl rfl, fun h2 => h2⟩

theorem countersMono_reserve (dt : PyDT) (st : St) :
    countersMono st.counters (reserveNextInvoiceNumber dt st).2.counters := by
  have hc : (reserveNextInvoiceNumber dt st).2.counters =
      dictSet st.counters (periodKey dt)
        (pyMax (dictGet st.counters (periodKey dt) 0) (monthMaxSuffix (monthPre dt) st.invoices) + 1) := by
    rw [reserve_eq]
  intro k
  by_cases hk : k = periodKey dt
  · constructor
    · right
      rw [hk, hc, dictGet_dictSet_self]
      have := pyMax_ge_left (dictGet st.counters (periodKey dt) 0) (monthMaxSuffix (monthPre dt) st.invoices)
      omega
    · intro _
      rw [hk, hc, dictLookup_dictSet_self]
      rfl
  · constructor
    · left
      rw [hc, dictGet_dictSet_ne _ _ _ hk]
    · intro h2
      rw [hc, dictLookup_dictSet_ne _ _ hk]
      exact h2

theorem createRecord_counters (p : RecPayload) (nowIso : String) (st : St) :
    (resultSt (createRecord p nowIso st) st).counters = st.counters := by
  unfold createRecord
  cases pyStripVal (truthyOr p.file (truthyOr p.fileUrl (PyVal.strV ""))) with
  | error e => rfl
  | ok fu =>
    dsimp only
    split
    · rfl
    · split
      · rfl
      · split
        · rfl
        · split
          · rfl
          · rfl

theorem upsertManager_counters (p : ManagerPayload) (st : St) :
    (resultSt (createOrUpdateManager p st) st).counters = st.counters := by
  unfold createOrUpdateManager
  dsimp only
  split
  · rfl
  · split
    · rfl
    · rfl

theorem createOrder_counters (p : OrderPayload) (ts : Int) (rand nowIso : String) (st : St) :
    (createOrder p ts rand nowIso st).2.counters = st.counters := by
  unfold createOrder
  dsimp only
  split <;> rfl

theorem updateOrderStatus_counters (oid : String) (p : StatusPayload) (nowIso : String) (st : St) :
    (resultSt (updateOrderStatus oid p nowIso st) st).counters = st.counters := by
  unfold updateOrderStatus
  dsimp only
  split
  · rfl
  · split <;> rfl

theorem deleteOrder_counters (oid : String) (st : St) :
    (stepSt (Op.deleteOrderOp oid) st).counters = st.counters := by
  show (match deleteOrder oid st with
    | Except.ok s => s
    | Except.error _ => st).counters = st.counters
  unfold deleteOrder
  split
  next s2 hs =>
    split at hs
    · injection hs with h2
      rw [← h2]
    · exact Except.noConfusion hs
  next e he => rfl

theorem attachFile_counters (iid : String) (f : FileForm) (st : St) :
    (resultSt (attachInvoiceFile iid f st) st).counters = st.counters := by
  unfold attachInvoiceFile
  dsimp only
  split <;> rfl

theorem updateInvoiceStatus_counters (iid : String) (p : StatusPayload) (nowIso : String) (st : St) :
    (resultSt (updateInvoiceStatus iid p nowIso st) st).counters = st.counters := by
  unfold updateInvoiceStatus
  dsimp only
  split
  · rfl
  · split <;> rfl

theorem deleteInvoice_counters (iid : String) (st : St) :
    (stepSt (Op.deleteInvoiceOp iid) st).counters = st.counters := by
  show (match deleteInvoice iid st with
    | Except.ok s => s
    | Except.error _ => st).counters = st.counters
  unfold deleteInvoice
  split
  next s2 hs =>
    split at hs
    · injection hs with h2
      rw [← h2]
    · exact Except.noConfusion hs
  next e he => rfl

theorem deleteManager_counters (mid : String) (st : St) :
    (resultSt (deleteManager mid st) st).counters = st.counters := by
  unfold deleteManager
  dsimp only
  split <;> rfl

theorem createInvoice_counters (when : PyDT) (number orderId : Option String)
    (file : Option FileForm) (nowIso : String) (st : St) :
    (resultSt (createInvoice when number orderId file nowIso st) st).counters = st.counters ∨
    (resultSt (createInvoice when number orderId file nowIso st) st).counters =
      (reserveNextInvoiceNumber when st).2.counters := by
  unfold createInvoice
  cases number with
  | none => right; rfl
  | some s =>
    by_cases hcond : (s != "" && pyStrip s != "") = true
    · simp only [hcond, if_true]
      cases hex : invoiceNumberExists (pyStrip s) st.invoices with
      | true => left; rfl
      | false => left; rfl
    · simp only [Bool.not_eq_true] at hcond
      simp only [hcond, Bool.false_eq_true, if_false]
      right; rfl

theorem createInvoiceJson_counters (p : InvoiceJsonPayload) (when : PyDT) (nowIso : String) (st : St) :
    (resultSt (createInvoiceJson p when nowIso st) st).counters = st.counters ∨
    (resultSt (createInvoiceJson p when nowIso st) st).counters =
      (reserveNextInvoiceNumber when st).2.counters := by
  unfold createInvoiceJson createInvoiceRecord
  dsimp only
  split
  · by_cases hnum : pyStrip (pyStr (p.number.getD PyVal.nullV)) = ""
    · left; simp [hnum, resultSt]
    · simp only [if_neg hnum]
      cases hex : invoiceNumberExists (pyStrip (pyStr (p.number.getD PyVal.nullV))) st.invoices with
      | true => left; rfl
      | false => left; rfl
  · right; rfl

theorem preview_counters (when : PyDT) (r : Option String) (st : St) :
    (previewNextInvoiceNumber when r st).2.counters = st.counters ∨
    (previewNextInvoiceNumber when r st).2.counters = (reserveNextInvoiceNumber when st).2.counters := by
  unfold previewNextInvoiceNumber
  dsimp only
  split
  · right; rfl
  · left; rfl

theorem stepSt_countersMono (op : Op) (st : St) : countersMono st.counters (stepSt op st).counters := by
  cases op with
  | createRecordOp p now => exact countersMono_of_eq (createRecord_counters p now st)
  | upsertManagerOp p => exact countersMono_of_eq (upsertManager_counters p st)
  | createOrderOp p ts rand now => exact countersMono_of_eq (createOrder_counters p ts rand now st)
  | updateOrderStatusOp oid p now => exact countersMono_of_eq (updateOrderStatus_counters oid p now st)
  | deleteOrderOp oid => exact countersMono_of_eq (deleteOrder_counters oid st)
  | createInvoiceOp when n o f now =>
    rcases createInvoice_counters when n o f now st with h | h
    · exact countersMono_of_eq h
    · show countersMono st.counters (resultSt (createInvoice when n o f now st) st).counters
      rw [h]
      exact countersMono_reserve when st
  | createInvoiceJsonOp p when now =>
    rcases createInvoiceJson_counters p when now st with h | h
    · exact countersMono_of_eq h
    · show countersMono st.counters (resultSt (createInvoiceJson p when now st) st).counters
      rw [h]
      exact countersMono_reserve when st
  | previewNextNumberOp when r =>
    rcases preview_counters when r st with h | h
    · exact countersMono_of_eq h
    · show countersMono st.counters (previewNextInvoiceNumber when r st).2.counters
      rw [h]
      exact countersMono_reserve when st
  | attachFileOp iid f => exact countersMono_of_eq (attachFile_counters iid f st)
  | updateInvoiceStatusOp iid p now => exact countersMono_of_eq (updateInvoiceStatus_counters iid p now st)
  | deleteInvoiceOp iid => exact countersMono_of_eq (deleteInvoice_counters iid st)
  | deleteManagerOp mid => exact countersMono_of_eq (deleteManager_counters mid st)
  | readOnlyOp => exact countersMono_of_eq rfl

/-! ## Remaining helper lemmas -/

theorem updateFirst_length (p : α → Bool) (f : α → α) :
    ∀ l : List α, (updateFirst p f l).length = l.length := by
  intro l
  induction l with
  | nil => rfl
  | cons x xs ih =>
    by_cases h : p x = true
    · simp [updateFirst, h]
    · simp [updateFirst, h, ih]

theorem removeFirst_length {p : α → Bool} :
    ∀ {l : List α}, l.any p = true → (removeFirst p l).length + 1 = l.length := by
  intro l
  induction l with
  | nil => intro h; simp at h
  | cons x xs ih =>
    intro h
    by_cases hx : p x = true
    · simp [removeFirst, hx]
    · have hx2 : p x = false := by simpa using hx
      have hxs : xs.any p = true := by simpa [List.any_cons, hx2] using h
      simp only [removeFirst, hx2, Bool.false_eq_true, if_false, List.length_cons]
      rw [← ih hxs]

theorem pyMax_left_of_ge {a b : Int} (h : b ≤ a) : pyMax a b = a := by
  unfold pyMax
  split <;> omega

theorem preview_none_eq (when : PyDT) (st : St) :
    previewNextInvoiceNumber when Option.none st = reserveNextInvoiceNumber when st := rfl

/-! ## Claim theorems -/

/-- C1: the reserving computation, for a target datetime, issues one plus
the greater of the persisted counter under the period key `YYYY-MM` and
the maximum parsed sequence suffix among invoices with the `MM-` month
prefix, persists that value under the period key, and returns the number
as the zero-padded `MM-XXX` string. -/
theorem reserve_next_invoice_number_spec (dt : PyDT) (st : St) :
    reserveNextInvoiceNumber dt st =
      (monthPre dt ++ pyFmt0Int 3
        (max (dictGet st.counters (periodKey dt) 0) (monthMaxSuffix (monthPre dt) st.invoices) + 1),
       { st with counters := dictSet st.counters (periodKey dt) (max (dictGet st.counters (periodKey dt) 0) (monthMaxSuffix (monthPre dt) st.invoices) + 1) }) := by
  rw [reserve_eq]
  rw [pyMax_eq_max]

/-- C2: both invoice-creating operations (multipart `POST /api/invoices`
and `POST /api/invoices/json`), with an auto-reserved or an explicit
number, preserve the invariant that all stored invoice numbers are
pairwise distinct, whatever the month and year of the request datetime. -/
theorem invoice_number_uniqueness_preserved (when : PyDT) (number orderId : Option String)
    (file : Option FileForm) (p : InvoiceJsonPayload) (now now2 : String) (st : St)
    (hp : List.Pairwise (fun a b => a.number ≠ b.number) st.invoices) :
    List.Pairwise (fun a b => a.number ≠ b.number)
      (resultSt (createInvoice when number orderId file now st) st).invoices ∧
    List.Pairwise (fun a b => a.number ≠ b.number)
      (resultSt (createInvoiceJson p when now2 st) st).invoices :=
  ⟨createInvoice_pairwise when number orderId file now st hp,
   createInvoiceJson_pairwise p when now2 st hp⟩

theorem invoice_number_uniqueness_preserved_witness :
    List.Pairwise (fun a b => a.number ≠ b.number)
      (resultSt (createInvoice dtW Option.none Option.none Option.none "t" stW) stW).invoices ∧
    List.Pairwise (fun a b => a.number ≠ b.number)
      (resultSt (createInvoiceJson emptyInvJsonPayload dtW "t" stW) stW).invoices :=
  invoice_number_uniqueness_preserved dtW Option.none Option.none Option.none
    emptyInvJsonPayload "t" "t" stW (by simp [stW, emptySt])

/-- C3 counterexample: from the empty store, a reservation issues
`03-001` (counter 1); creating an invoice with the explicit number
`03-005` then makes the next reservation issue `03-006` — the sequence
jumps by 5 over the previous reservation, not by 1 as the claim states
(it does not yield `03-002`). -/
theorem reservation_gap_counterexample :
    (reserveNextInvoiceNumber dtW emptySt).1 = "03-001" ∧
    dictGet c3st1.counters "2025-03" 0 = 1 ∧
    c3st2.invoices.length = 1 ∧
    (reserveNextInvoiceNumber dtW c3st2).1 = "03-006" ∧
    dictGet (reserveNextInvoiceNumber dtW c3st2).2.counters "2025-03" 0 = 6 ∧
    (reserveNextInvoiceNumber dtW c3st2).1 ≠ "03-002" := by
  refine ⟨rfl, rfl, rfl, ?_, ?_, ?_⟩ <;> decide

/-- C3 amended: a reservation issues one plus the maximum of the counter
and the live month maximum, so two reservations with no intervening
invoice creation yield consecutive sequences (the second is exactly the
first plus 1), and from an empty store reserving for month 03 twice
yields `03-001` then `03-002`; an invoice created in between with a
larger explicit suffix makes the next reservation jump past it. -/
theorem consecutive_reservations_increment_by_one (dt : PyDT) (st : St) :
    ((reserveNextInvoiceNumber dt (reserveNextInvoiceNumber dt st).2).1 =
      monthPre dt ++ pyFmt0Int 3 (dictGet (reserveNextInvoiceNumber dt st).2.counters (periodKey dt) 0 + 1) ∧
     dictGet (reserveNextInvoiceNumber dt (reserveNextInvoiceNumber dt st).2).2.counters (periodKey dt) 0 =
      dictGet (reserveNextInvoiceNumber dt st).2.counters (periodKey dt) 0 + 1) ∧
    (reserveNextInvoiceNumber dtW emptySt).1 = "03-001" ∧
    (reserveNextInvoiceNumber dtW (reserveNextInvoiceNumber dtW emptySt).2).1 = "03-002" := by
  have hM : 0 ≤ monthMaxSuffix (monthPre dt) st.invoices := monthMaxSuffix_nonneg _ _
  have hstep1 : (reserveNextInvoiceNumber dt st).2.counters =
      dictSet st.counters (periodKey dt)
        (pyMax (dictGet st.counters (periodKey dt) 0) (monthMaxSuffix (monthPre dt) st.invoices) + 1) := by
    rw [reserve_eq]
  have hget1 : dictGet (reserveNextInvoiceNumber dt st).2.counters (periodKey dt) 0 =
      pyMax (dictGet st.counters (periodKey dt) 0) (monthMaxSuffix (monthPre dt) st.invoices) + 1 := by
    rw [hstep1, dictGet_dictSet_self]
  have hM2 : monthMaxSuffix (monthPre dt) (reserveNextInvoiceNumber dt st).2.invoices =
      monthMaxSuffix (monthPre dt) st.invoices := by
    rw [reserve_invoices]
  have hmax2 : pyMax (dictGet (reserveNextInvoiceNumber dt st).2.counters (periodKey dt) 0)
      (monthMaxSuffix (monthPre dt) (reserveNextInvoiceNumber dt st).2.invoices) =
      dictGet (reserveNextInvoiceNumber dt st).2.counters (periodKey dt) 0 := by
    rw [hM2, hget1]
    apply pyMax_left_of_ge
    have := pyMax_ge_right (dictGet st.counters (periodKey dt) 0) (monthMaxSuffix (monthPre dt) st.invoices)
    omega
  refine ⟨⟨?_, ?_⟩, rfl, by decide⟩
  · conv in reserveNextInvoiceNumber dt (reserveNextInvoiceNumber dt st).2 => rw [reserve_eq]
    rw [hmax2]
  · conv in reserveNextInvoiceNumber dt (reserveNextInvoiceNumber dt st).2 => rw [reserve_eq]
    rw [hmax2, dictGet_dictSet_self]

/-- C4: creating an invoice whose explicit number (after stripping)
already exists fails with `DuplicateNumber` (HTTP 400) on both creation
endpoints, and the store is unchanged — the invoice list and the counter
state are exactly as before. -/
theorem duplicate_explicit_number_rejected (when : PyDT) (s : String) (orderId : Option String)
    (file : Option FileForm) (p : InvoiceJsonPayload) (v : PyVal) (now now2 : String) (st : St)
    (hs : pyStrip s ≠ "")
    (hex : invoiceNumberExists (pyStrip s) st.invoices = true)
    (hv : p.number = some v) (hvt : pyTruthy v = true)
    (hvs : pyStrip (pyStr v) ≠ "")
    (hex2 : invoiceNumberExists (pyStrip (pyStr v)) st.invoices = true) :
    createInvoice when (some s) orderId file now st = Except.error ApiErr.duplicateNumber ∧
    resultSt (createInvoice when (some s) orderId file now st) st = st ∧
    createInvoiceJson p when now2 st = Except.error ApiErr.duplicateNumber ∧
    resultSt (createInvoiceJson p when now2 st) st = st ∧
    httpStatus ApiErr.duplicateNumber = 400 := by
  have hsne : s ≠ "" := by
    intro he
    rw [he] at hs
    exact hs rfl
  have hcond : (s != "" && pyStrip s != "") = true := by
    simp [bne_iff_ne, hsne, hs]
  have h1 : createInvoice when (some s) orderId file now st = Except.error ApiErr.duplicateNumber := by
    unfold createInvoice
    simp only [hcond, if_true, hex, if_true]
  have h2 : createInvoiceJson p when now2 st = Except.error ApiErr.duplicateNumber := by
    unfold createInvoiceJson
    dsimp only
    rw [hv]
    simp only [hvt, if_true]
    simp only [Option.getD_some]
    rw [if_neg hvs]
    simp only [hex2, if_true]
  refine ⟨h1, ?_, h2, ?_, rfl⟩
  · rw [h1]; rfl
  · rw [h2]; rfl

theorem duplicate_explicit_number_rejected_witness :
    createInvoice dtW (some "03-001") Option.none Option.none "t" stW =
      Except.error ApiErr.duplicateNumber ∧
    resultSt (createInvoice dtW (some "03-001") Option.none Option.none "t" stW) stW = stW ∧
    createInvoiceJson { emptyInvJsonPayload with number := some (PyVal.strV "03-001") } dtW "t" stW =
      Except.error ApiErr.duplicateNumber ∧
    resultSt (createInvoiceJson { emptyInvJsonPayload with number := some (PyVal.strV "03-001") } dtW "t" stW) stW = stW ∧
    httpStatus ApiErr.duplicateNumber = 400 :=
  duplicate_explicit_number_rejected dtW "03-001" Option.none Option.none
    { emptyInvJsonPayload with number := some (PyVal.strV "03-001") } (PyVal.strV "03-001")
    "t" "t" stW (by decide) (by decide) rfl (by decide) (by decide) (by decide)

/-- C5 counterexample: a managers-create request whose required fields
are not non-empty strings (an integer id and a JSON null name) does not
fail: `str()` coercion turns them into the non-empty strings "5" and
"None", and the manager is created, mutating the table. -/
theorem manager_nonstring_fields_accepted :
    createOrUpdateManager { id := some (PyVal.intV 5), name := some PyVal.nullV } emptySt =
      Except.ok (("created", { id := "5", name := "None" }),
        { emptySt with managers := [{ id := "5", name := "None" }] }) := rfl

/-- C5 amended: the required-field validation applies `str()` then
`strip()`: for the managers and records create endpoints (records:
whenever its file chain does not raise) a request fails with
`MissingField` (HTTP 400), leaving the table unchanged, exactly when a
required field is missing or its coercion strips to the empty string
(managers: `id`, `name`; records: `id`, `name`, `date` and the
`file`/`file_url` chain), and is accepted otherwise — so non-string
values whose coercion is non-empty are accepted; a truthy explicit
JSON-invoice `number` that strips to empty is likewise rejected; the
orders create endpoint validates no required fields: every payload
results in a stored (updated or appended) order. -/
theorem missing_required_fields_rejected (pm : ManagerPayload) (pr : RecPayload)
    (po : OrderPayload) (pj : InvoiceJsonPayload) (v : PyVal) (fu : String) (ts : Int)
    (rand : String) (when : PyDT) (now now2 now3 : String) (st : St) :
    (pyStrip (pyStr (pm.id.getD (PyVal.strV ""))) = "" →
      createOrUpdateManager pm st = Except.error (ApiErr.missingField "id") ∧
      resultSt (createOrUpdateManager pm st) st = st) ∧
    (pyStrip (pyStr (pm.id.getD (PyVal.strV ""))) ≠ "" →
      pyStrip (pyStr (pm.name.getD (PyVal.strV ""))) = "" →
      createOrUpdateManager pm st = Except.error (ApiErr.missingField "name") ∧
      resultSt (createOrUpdateManager pm st) st = st) ∧
    (pyStrip (pyStr (pm.id.getD (PyVal.strV ""))) ≠ "" →
      pyStrip (pyStr (pm.name.getD (PyVal.strV ""))) ≠ "" →
      (createOrUpdateManager pm st).isOk = true) ∧
    (pyStripVal (truthyOr pr.file (truthyOr pr.fileUrl (PyVal.strV ""))) = Except.ok fu →
      (pyStrip (pyStr (pr.id.getD (PyVal.strV ""))) = "" →
        createRecord pr now st = Except.error (ApiErr.missingField "id") ∧
        resultSt (createRecord pr now st) st = st) ∧
      (pyStrip (pyStr (pr.id.getD (PyVal.strV ""))) ≠ "" →
        pyStrip (pyStr (pr.name.getD (PyVal.strV ""))) = "" →
        createRecord pr now st = Except.error (ApiErr.missingField "name") ∧
        resultSt (createRecord pr now st) st = st) ∧
      (pyStrip (pyStr (pr.id.getD (PyVal.strV ""))) ≠ "" →
        pyStrip (pyStr (pr.name.getD (PyVal.strV ""))) ≠ "" →
        pyStrip (pyStr (pr.date.getD (PyVal.strV ""))) = "" →
        createRecord pr now st = Except.error (ApiErr.missingField "date") ∧
        resultSt (createRecord pr now st) st = st) ∧
      (pyStrip (pyStr (pr.id.getD (PyVal.strV ""))) ≠ "" →
        pyStrip (pyStr (pr.name.getD (PyVal.strV ""))) ≠ "" →
        pyStrip (pyStr (pr.date.getD (PyVal.strV ""))) ≠ "" →
        fu = "" →
        createRecord pr now st = Except.error (ApiErr.missingField "file") ∧
        resultSt (createRecord pr now st) st = st) ∧
      (pyStrip (pyStr (pr.id.getD (PyVal.strV ""))) ≠ "" →
        pyStrip (pyStr (pr.name.getD (PyVal.strV ""))) ≠ "" →
        pyStrip (pyStr (pr.date.getD (PyVal.strV ""))) ≠ "" →
        fu ≠ "" →
        (createRecord pr now st).isOk = true)) ∧
    ((createOrder po ts rand now3 st).2.orders.length = st.orders.length ∨
     (createOrder po ts rand now3 st).2.orders.length = st.orders.length + 1) ∧
    (pj.number = some v → pyTruthy v = true → pyStrip (pyStr v) = "" →
      createInvoiceJson pj when now2 st = Except.error (ApiErr.missingField "number") ∧
      resultSt (createInvoiceJson pj when now2 st) st = st) ∧
    httpStatus (ApiErr.missingField "id") = 400 ∧
    httpStatus (ApiErr.missingField "name") = 400 ∧
    httpStatus (ApiErr.missingField "date") = 400 ∧
    httpStatus (ApiErr.missingField "file") = 400 ∧
    httpStatus (ApiErr.missingField "number") = 400 := by
  refine ⟨?_, ?_, ?_, ?_, ?_, ?_, rfl, rfl, rfl, rfl, rfl⟩
  · intro hid
    have h : createOrUpdateManager pm st = Except.error (ApiErr.missingField "id") := by
      unfold createOrUpdateManager
      simp only [hid, if_true]
    exact ⟨h, by rw [h]; rfl⟩
  · intro hid hname
    have h : createOrUpdateManager pm st = Except.error (ApiErr.missingField "name") := by
      unfold createOrUpdateManager
      rw [if_neg hid, if_pos hname]
    exact ⟨h, by rw [h]; rfl⟩
  · intro hid hname
    unfold createOrUpdateManager
    rw [if_neg hid, if_neg hname]
    rfl
  · intro hok
    refine ⟨?_, ?_, ?_, ?_, ?_⟩
    · intro hid
      have h : createRecord pr now st = Except.error (ApiErr.missingField "id") := by
        unfold createRecord
        rw [hok]
        dsimp only
        rw [if_pos hid]
      exact ⟨h, by rw [h]; rfl⟩
    · intro hid hname
      have h : createRecord pr now st = Except.error (ApiErr.missingField "name") := by
        unfold createRecord
        rw [hok]
        dsimp only
        rw [if_neg hid, if_pos hname]
      exact ⟨h, by rw [h]; rfl⟩
    · intro hid hname hdate
      have h : createRecord pr now st = Except.error (ApiErr.missingField "date") := by
        unfold createRecord
        rw [hok]
        dsimp only
        rw [if_neg hid, if_neg hname, if_pos hdate]
      exact ⟨h, by rw [h]; rfl⟩
    · intro hid hname hdate hfu
      have h : createRecord pr now st = Except.error (ApiErr.missingField "file") := by
        unfold createRecord
        rw [hok]
        dsimp only
        rw [if_neg hid, if_neg hname, if_neg hdate, if_pos hfu]
      exact ⟨h, by rw [h]; rfl⟩
    · intro hid hname hdate hfu
      unfold createRecord
      rw [hok]
      dsimp only
      rw [if_neg hid, if_neg hname, if_neg hdate, if_neg hfu]
      rfl
  · unfold createOrder
    dsimp only
    split
    · left
      exact updateFirst_length _ _ st.orders
    · right
      simp
  · intro hn ht hs
    have h : createInvoiceJson pj when now2 st = Except.error (ApiErr.missingField "number") := by
      unfold createInvoiceJson
      dsimp only
      rw [hn]
      simp only [ht, if_true, Option.getD_some, hs]
    exact ⟨h, by rw [h]; rfl⟩

theorem missing_required_fields_rejected_witness :
    (createOrUpdateManager mgrPayloadW emptySt = Except.error (ApiErr.missingField "id") ∧
     resultSt (createOrUpdateManager mgrPayloadW emptySt) emptySt = emptySt) ∧
    (createOrUpdateManager { id := some (PyVal.intV 5), name := some PyVal.nullV } emptySt).isOk = true ∧
    (createRecord recPayloadW "t" emptySt = Except.error (ApiErr.missingField "id") ∧
     resultSt (createRecord recPayloadW "t" emptySt) emptySt = emptySt) ∧
    (createRecord recPayloadNoName "t" emptySt = Except.error (ApiErr.missingField "name") ∧
     resultSt (createRecord recPayloadNoName "t" emptySt) emptySt = emptySt) ∧
    (createRecord recPayloadNoDate "t" emptySt = Except.error (ApiErr.missingField "date") ∧
     resultSt (createRecord recPayloadNoDate "t" emptySt) emptySt = emptySt) ∧
    (createRecord recPayloadNoFile "t" emptySt = Except.error (ApiErr.missingField "file") ∧
     resultSt (createRecord recPayloadNoFile "t" emptySt) emptySt = emptySt) ∧
    (createRecord recPayloadFull "t" emptySt).isOk = true ∧
    ((createOrder emptyOrderPayload 0 "r" "t" emptySt).2.orders.length = emptySt.orders.length ∨
     (createOrder emptyOrderPayload 0 "r" "t" emptySt).2.orders.length = emptySt.orders.length + 1) ∧
    (createInvoiceJson blankNumberPayloadW dtW "t" emptySt = Except.error (ApiErr.missingField "number") ∧
     resultSt (createInvoiceJson blankNumberPayloadW dtW "t" emptySt) emptySt = emptySt) := by
  refine ⟨?_, ?_, ?_, ?_, ?_, ?_, ?_, ?_, ?_⟩
  · exact (missing_required_fields_rejected mgrPayloadW recPayloadEmptyW emptyOrderPayload
      emptyInvJsonPayload PyVal.nullV "" 0 "r" dtW "t" "t" "t" emptySt).1 (by decide)
  · exact (missing_required_fields_rejected { id := some (PyVal.intV 5), name := some PyVal.nullV }
      recPayloadEmptyW emptyOrderPayload emptyInvJsonPayload PyVal.nullV "" 0 "r" dtW "t" "t" "t"
      emptySt).2.2.1 (by decide) (by decide)
  · exact ((missing_required_fields_rejected mgrPayloadW recPayloadW emptyOrderPayload
      emptyInvJsonPayload PyVal.nullV "f" 0 "r" dtW "t" "t" "t" emptySt).2.2.2.1 rfl).1 (by decide)
  · exact ((missing_required_fields_rejected mgrPayloadW recPayloadNoName emptyOrderPayload
      emptyInvJsonPayload PyVal.nullV "f" 0 "r" dtW "t" "t" "t" emptySt).2.2.2.1 rfl).2.1
      (by decide) (by decide)
  · exact ((missing_required_fields_rejected mgrPayloadW recPayloadNoDate emptyOrderPayload
      emptyInvJsonPayload PyVal.nullV "f" 0 "r" dtW "t" "t" "t" emptySt).2.2.2.1 rfl).2.2.1
      (by decide) (by decide) (by decide)
  · exact ((missing_required_fields_rejected mgrPayloadW recPayloadNoFile emptyOrderPayload
      emptyInvJsonPayload PyVal.nullV "" 0 "r" dtW "t" "t" "t" emptySt).2.2.2.1 rfl).2.2.2.1
      (by decide) (by decide) (by decide) rfl
  · exact ((missing_required_fields_rejected mgrPayloadW recPayloadFull emptyOrderPayload
      emptyInvJsonPayload PyVal.nullV "f" 0 "r" dtW "t" "t" "t" emptySt).2.2.2.1 rfl).2.2.2.2
      (by decide) (by decide) (by decide) (by decide)
  · exact (missing_required_fields_rejected mgrPayloadW recPayloadEmptyW emptyOrderPayload
      emptyInvJsonPayload PyVal.nullV "" 0 "r" dtW "t" "t" "t" emptySt).2.2.2.2.1
  · exact (missing_required_fields_rejected mgrPayloadW recPayloadEmptyW emptyOrderPayload
      blankNumberPayloadW (PyVal.strV "  ") "" 0 "r" dtW "t" "t" "t" emptySt).2.2.2.2.2.1
      rfl (by decide) (by decide)

/-- C6: deleting a manager by id fails with a 404 not-found when no
manager has that id; when one exists, exactly one entry is removed and
the deleted id and the new count are returned.  (Modelled from the spec:
src/ has no `DELETE /api/managers/{id}` handler.) -/
theorem delete_manager_spec (mid : String) (st : St) :
    (st.managers.any (fun m => m.id == mid) = false →
      deleteManager mid st = Except.error (ApiErr.notFound "Manager not found") ∧
      httpStatus (ApiErr.notFound "Manager not found") = 404 ∧
      resultSt (deleteManager mid st) st = st) ∧
    (st.managers.any (fun m => m.id == mid) = true →
      deleteManager mid st =
        Except.ok ((mid, (removeFirst (fun m => m.id == mid) st.managers).length),
          { st with managers := removeFirst (fun m => m.id == mid) st.managers }) ∧
      (removeFirst (fun m => m.id == mid) st.managers).length + 1 = st.managers.length) := by
  constructor
  · intro hno
    have h : deleteManager mid st = Except.error (ApiErr.notFound "Manager not found") := by
      unfold deleteManager
      simp only [hno, Bool.false_eq_true, if_false]
    exact ⟨h, rfl, by rw [h]; rfl⟩
  · intro hyes
    constructor
    · unfold deleteManager
      simp only [hyes, if_true]
    · exact removeFirst_length hyes

theorem delete_manager_spec_witness :
    (deleteManager "zz" stMgr = Except.error (ApiErr.notFound "Manager not found") ∧
     httpStatus (ApiErr.notFound "Manager not found") = 404 ∧
     resultSt (deleteManager "zz" stMgr) stMgr = stMgr) ∧
    (deleteManager "m1" stMgr =
      Except.ok (("m1", (removeFirst (fun m => m.id == "m1") stMgr.managers).length),
        { stMgr with managers := removeFirst (fun m => m.id == "m1") stMgr.managers }) ∧
     (removeFirst (fun m => m.id == "m1") stMgr.managers).length + 1 = stMgr.managers.length) :=
  ⟨(delete_manager_spec "zz" stMgr).1 (by decide),
   (delete_manager_spec "m1" stMgr).2 (by decide)⟩

/-- C7 counterexample: the load helpers do raise on one class of file
content: a file whose bytes are not valid UTF-8 (for example a single
0xFF byte) makes `read_text` raise `UnicodeDecodeError`, which is not in
the caught tuple `(json.JSONDecodeError, IOError, OSError)` and
propagates, instead of an empty container being returned. -/
theorem load_raises_on_undecodable_file :
    loadList ReadSt.decodeErr = Except.error PyExn.unicodeDecodeError ∧
    loadRecords ReadSt.decodeErr = Except.error PyExn.unicodeDecodeError ∧
    loadDict ReadSt.decodeErr = Except.error PyExn.unicodeDecodeError := ⟨rfl, rfl, rfl⟩

/-- C7 amended: except for undecodable bytes (where `UnicodeDecodeError`
propagates), the load helpers never raise: a missing file, a caught read
error or blank text gives the empty container, JSON of the expected
shape is returned parsed, and every other readable content also yields a
normal return. -/
theorem load_total_except_decode (r : ReadSt) (s : String) (l : List PyDoc)
    (d : List (String × PyDoc)) :
    (r ≠ ReadSt.decodeErr → (loadList r).isOk = true ∧ (loadDict r).isOk = true) ∧
    loadList ReadSt.missing = Except.ok [] ∧
    loadList ReadSt.osErr = Except.ok [] ∧
    loadDict ReadSt.missing = Except.ok [] ∧
    loadDict ReadSt.osErr = Except.ok [] ∧
    (pyStrip s = "" → loadList (ReadSt.okText s) = Except.ok [] ∧
      loadDict (ReadSt.okText s) = Except.ok []) ∧
    (pyStrip s ≠ "" → pyJsonLoads s = some (PyDoc.listD l) →
      loadList (ReadSt.okText s) = Except.ok l) ∧
    (pyStrip s ≠ "" → pyJsonLoads s = some (PyDoc.dictD d) →
      loadDict (ReadSt.okText s) = Except.ok d) := by
  refine ⟨?_, rfl, rfl, rfl, rfl, ?_, ?_, ?_⟩
  · intro hne
    cases r with
    | missing => exact ⟨rfl, rfl⟩
    | osErr => exact ⟨rfl, rfl⟩
    | decodeErr => exact absurd rfl hne
    | okText raw =>
      constructor
      · unfold loadList
        dsimp only
        split
        · rfl
        · split <;> rfl
      · unfold loadDict
        dsimp only
        split
        · rfl
        · split <;> rfl
  · intro hb
    constructor
    · unfold loadList
      simp [hb]
    · unfold loadDict
      simp [hb]
  · intro hne hp
    have hs0 : s ≠ "" := fun he => hne (by rw [he]; rfl)
    unfold loadList
    simp [hs0, hne, hp]
  · intro hne hp
    have hs0 : s ≠ "" := fun he => hne (by rw [he]; rfl)
    unfold loadDict
    simp [hs0, hne, hp]

theorem load_total_except_decode_witness :
    ((loadList (ReadSt.okText "[1, 2]")).isOk = true ∧
     (loadDict (ReadSt.okText "[1, 2]")).isOk = true) ∧
    (loadList (ReadSt.okText " ") = Except.ok [] ∧ loadDict (ReadSt.okText " ") = Except.ok []) ∧
    loadList (ReadSt.okText "[1, 2]") = Except.ok [PyDoc.intD 1, PyDoc.intD 2] ∧
    loadDict (ReadSt.okText "\x7b\"a\": 3\x7d") = Except.ok [("a", PyDoc.intD 3)] := by
  refine ⟨?_, ?_, ?_, ?_⟩
  · exact (load_total_except_decode (ReadSt.okText "[1, 2]") "" [] []).1 (by intro h; cases h)
  · exact (load_total_except_decode ReadSt.missing " " [] []).2.2.2.2.2.1 rfl
  · exact (load_total_except_decode ReadSt.missing "[1, 2]" [PyDoc.intD 1, PyDoc.intD 2] []).2.2.2.2.2.2.1
      (by decide) rfl
  · exact (load_total_except_decode ReadSt.missing "\x7b\"a\": 3\x7d" [] [("a", PyDoc.intD 3)]).2.2.2.2.2.2.2
      (by decide) rfl

/-- C8: for every period key, every operation of the system either
leaves the persisted counter entry unchanged or strictly increases it,
and never removes an existing entry. -/
theorem counters_monotone_nondecreasing (op : Op) (st : St) :
    countersMono st.counters (stepSt op st).counters :=
  stepSt_countersMono op st

theorem counters_monotone_nondecreasing_witness :
    (dictGet (stepSt (Op.previewNextNumberOp dtW Option.none) stW).counters "2024-03" 0 =
       dictGet stW.counters "2024-03" 0 ∨
     dictGet stW.counters "2024-03" 0 <
       dictGet (stepSt (Op.previewNextNumberOp dtW Option.none) stW).counters "2024-03" 0) ∧
    (dictLookup (stepSt (Op.previewNextNumberOp dtW Option.none) stW).counters "2024-03").isSome = true :=
  ⟨(counters_monotone_nondecreasing (Op.previewNextNumberOp dtW Option.none) stW "2024-03").1,
   (counters_monotone_nondecreasing (Op.previewNextNumberOp dtW Option.none) stW "2024-03").2 (by decide)⟩

/-- C9: `GET /api/invoices/next-number` with `reserve` omitted performs
a reservation, not a preview — it persistently and strictly increases
the month counter; a lowercased `reserve` value in `("1","true","yes")`
also reserves, and only any other supplied value gives the non-mutating
preview. -/
theorem next_number_default_reserves (when : PyDT) (st : St) :
    previewNextInvoiceNumber when Option.none st = reserveNextInvoiceNumber when st ∧
    dictGet st.counters (periodKey when) 0 <
      dictGet (previewNextInvoiceNumber when Option.none st).2.counters (periodKey when) 0 ∧
    (∀ r : String, (pyLower r == "1" || pyLower r == "true" || pyLower r == "yes") = true →
      previewNextInvoiceNumber when (some r) st = reserveNextInvoiceNumber when st) ∧
    (∀ r : String, (pyLower r == "1" || pyLower r == "true" || pyLower r == "yes") = false →
      previewNextInvoiceNumber when (some r) st = (nextInvoiceNumber when st.invoices, st)) := by
  refine ⟨rfl, ?_, ?_, ?_⟩
  · rw [preview_none_eq]
    have hc : (reserveNextInvoiceNumber when st).2.counters =
        dictSet st.counters (periodKey when)
          (pyMax (dictGet st.counters (periodKey when) 0) (monthMaxSuffix (monthPre when) st.invoices) + 1) := by
      rw [reserve_eq]
    rw [hc, dictGet_dictSet_self]
    have := pyMax_ge_left (dictGet st.counters (periodKey when) 0) (monthMaxSuffix (monthPre when) st.invoices)
    omega
  · intro r hr
    unfold previewNextInvoiceNumber
    simp only [hr, if_true]
  · intro r hr
    unfold previewNextInvoiceNumber
    simp only [hr, Bool.false_eq_true, if_false]

theorem next_number_default_reserves_witness :
    previewNextInvoiceNumber dtW (some "TRUE") stW = reserveNextInvoiceNumber dtW stW ∧
    previewNextInvoiceNumber dtW (some "no") stW = (nextInvoiceNumber dtW stW.invoices, stW) :=
  ⟨(next_number_default_reserves dtW stW).2.2.1 "TRUE" (by decide),
   (next_number_default_reserves dtW stW).2.2.2 "no" (by decide)⟩

/-- C10 counterexample: the status value " production " is outside the
allowed set as supplied, yet order creation neither fails nor replaces
it by the empty string — the status check runs on the stripped value, so
the order is created with status "production"; the status-transition
endpoint likewise accepts it instead of rejecting with 400. -/
theorem status_whitespace_counterexample :
    allowedStatus " production " = false ∧
    (createOrder { emptyOrderPayload with status := some (PyVal.strV " production ") }
      0 "r" "t" emptySt).1.status = "production" ∧
    ("production" : String) ≠ "" ∧
    (updateOrderStatus "o1" { status := some (PyVal.strV " production ") } "t" stOrd).isOk = true := by
  refine ⟨by decide, by decide, by decide, by decide⟩

/-- C10 amended: with the status compared after `str()` coercion and
`strip()`, a value outside the allowed set does not fail order creation
or JSON invoice creation — the record is created with status silently
replaced by the empty string — while the status-transition endpoint
rejects the same value with `InvalidStatus` (HTTP 400) and mutates
nothing. -/
theorem invalid_status_normalized (p : OrderPayload) (q : InvoiceJsonPayload) (sp : StatusPayload)
    (oid : String) (ts : Int) (rand now now2 now3 : String) (when : PyDT) (st : St)
    (hp : allowedStatus (pyStrip (pyStr (p.status.getD (PyVal.strV "")))) = false)
    (hq : allowedStatus (pyStrip (pyStr (q.status.getD (PyVal.strV "")))) = false)
    (hqn : q.number = Option.none)
    (hsp : allowedStatus (pyStrip (pyStr (sp.status.getD (PyVal.strV "")))) = false) :
    (createOrder p ts rand now st).1.status = "" ∧
    (∃ r st2, createInvoiceJson q when now2 st = Except.ok (r, st2) ∧ r.status = "") ∧
    updateOrderStatus oid sp now3 st = Except.error ApiErr.invalidStatus ∧
    httpStatus ApiErr.invalidStatus = 400 ∧
    resultSt (updateOrderStatus oid sp now3 st) st = st := by
  have horder : (createOrder p ts rand now st).1.status = "" := by
    unfold createOrder
    dsimp only
    simp only [hp, Bool.false_eq_true, if_false]
    split <;> rfl
  have hupd : updateOrderStatus oid sp now3 st = Except.error ApiErr.invalidStatus := by
    unfold updateOrderStatus
    simp only [hsp, Bool.not_false, if_true]
  refine ⟨horder, ?_, hupd, rfl, by rw [hupd]; rfl⟩
  unfold createInvoiceJson
  dsimp only
  rw [hqn]
  simp only [Bool.false_eq_true, if_false]
  refine ⟨_, _, rfl, ?_⟩
  dsimp only
  simp only [hq, Bool.false_eq_true, if_false]

theorem invalid_status_normalized_witness :
    (createOrder { emptyOrderPayload with status := some (PyVal.strV "bogus") }
      0 "r" "t" emptySt).1.status = "" ∧
    (∃ r st2, createInvoiceJson { emptyInvJsonPayload with status := some (PyVal.strV "bogus") }
      dtW "t" emptySt = Except.ok (r, st2) ∧ r.status = "") ∧
    updateOrderStatus "o1" { status := some (PyVal.strV "bogus") } "t" emptySt =
      Except.error ApiErr.invalidStatus ∧
    httpStatus ApiErr.invalidStatus = 400 ∧
    resultSt (updateOrderStatus "o1" { status := some (PyVal.strV "bogus") } "t" emptySt) emptySt = emptySt :=
  invalid_status_normalized { emptyOrderPayload with status := some (PyVal.strV "bogus") }
    { emptyInvJsonPayload with status := some (PyVal.strV "bogus") }
    { status := some (PyVal.strV "bogus") } "o1" 0 "r" "t" "t" "t" dtW emptySt
    (by decide) (by decide) rfl (by decide)
